import Mathlib

/-!
# Verification of the unCaptcha challenge lifecycle engine

Shallow embedding of the unCaptcha core (challenge generation, dual-mode
verification, rate limiting, encoding and crypto primitives) together with
proofs of the specification's claims.

Modelling conventions:

* A JavaScript string is modelled as a list of Unicode code points
  (`JSString := List Nat`); well-formed strings contain only Unicode scalar
  values (`Scalar`).  Byte buffers are lists of naturals below 256.
* Node's `Buffer.from(s, 'utf-8')` / `buf.toString('utf-8')` are platform
  primitives (not repository code); they are embedded here as `utf8Encode` /
  `utf8Decode` with WHATWG-style replacement (U+FFFD) on malformed input,
  which is Node's observable behaviour.
* `Date.now()` is passed explicitly as a `now : Int` argument (milliseconds).
* JavaScript `Map` objects are modelled as association lists with
  `mapFind` / `mapSet` / `mapErase`.
* `JSON.stringify` and HMAC-SHA256 are platform primitives; the verifier and
  generator are parameterised over them (`stringify`, `sign`), and claims
  that depend on their injectivity / collision freeness take those facts as
  hypotheses, exactly as the specification does.
* A `throw` in the JavaScript source is modelled by an `Option`/`none`
  result.
-/

namespace UnCaptcha

/-- A JavaScript string, as the sequence of its Unicode code points. -/
abbrev JSString := List Nat

/-- A code point is a Unicode scalar value: below 0x110000 and not a
surrogate. JavaScript strings obtained from well-formed text contain only
scalar values (lone surrogates are an artifact of UTF-16 and are replaced by
U+FFFD by every Node text conversion). -/
def isScalar (c : Nat) : Bool :=
  decide (c < 0x110000 ∧ (c < 0xD800 ∨ 0xDFFF < c))

theorem isScalar_iff (c : Nat) :
    isScalar c = true ↔ c < 0x110000 ∧ (c < 0xD800 ∨ 0xDFFF < c) := by
  simp [isScalar]

/-- A well-formed JavaScript string: every code point is a scalar value. -/
def Scalar (s : JSString) : Prop := ∀ c ∈ s, isScalar c = true

instance (s : JSString) : Decidable (Scalar s) := by
  unfold Scalar; infer_instance

/-- UTF-8 encoding of a single code point, as Node's `Buffer.from(·,'utf-8')`
produces it: 1–4 bytes for scalar values, and the replacement character
U+FFFD (bytes EF BF BD) for a lone surrogate. -/
def utf8EncodeChar (c : Nat) : List Nat :=
  if c < 0x80 then [c]
  else if c < 0x800 then [0xC0 + c / 64, 0x80 + c % 64]
  else if c < 0x10000 then
    if 0xD800 ≤ c ∧ c ≤ 0xDFFF then [0xEF, 0xBF, 0xBD]
    else [0xE0 + c / 4096, 0x80 + c / 64 % 64, 0x80 + c % 64]
  else [0xF0 + c / 262144, 0x80 + c / 4096 % 64, 0x80 + c / 64 % 64, 0x80 + c % 64]

/-- UTF-8 encoding of a string (Node `Buffer.from(s, 'utf-8')`). -/
def utf8Encode (s : JSString) : List Nat := s.flatMap utf8EncodeChar

/-- Is `b` a UTF-8 continuation byte? -/
def isCont (b : Nat) : Bool := decide (0x80 ≤ b ∧ b < 0xC0)

/-- Decode one UTF-8 unit given the lead byte and the remaining bytes.
Returns the decoded code point (U+FFFD for malformed sequences) and the
bytes that are left. -/
def utf8Step (b : Nat) (rest : List Nat) : Nat × List Nat :=
  if b < 0x80 then (b, rest)
  else if b < 0xE0 then
    match rest with
    | b1 :: rest2 =>
      if decide (0xC2 ≤ b) && isCont b1 then
        ((b - 0xC0) * 64 + (b1 - 0x80), rest2)
      else (0xFFFD, b1 :: rest2)
    | [] => (0xFFFD, [])
  else if b < 0xF0 then
    match rest with
    | b1 :: b2 :: rest3 =>
      if isCont b1 && isCont b2 then
        ((b - 0xE0) * 4096 + (b1 - 0x80) * 64 + (b2 - 0x80), rest3)
      else (0xFFFD, b1 :: b2 :: rest3)
    | other => (0xFFFD, other)
  else
    match rest with
    | b1 :: b2 :: b3 :: rest4 =>
      if isCont b1 && isCont b2 && isCont b3 then
        ((b - 0xF0) * 262144 + (b1 - 0x80) * 4096 + (b2 - 0x80) * 64 + (b3 - 0x80), rest4)
      else (0xFFFD, b1 :: b2 :: b3 :: rest4)
    | other => (0xFFFD, other)

theorem utf8Step_length (b : Nat) (rest : List Nat) :
    (utf8Step b rest).2.length ≤ rest.length := by
  unfold utf8Step
  repeat' split
  all_goals simp_all
  all_goals omega

/-- Total UTF-8 decoding of a byte sequence (Node `buf.toString('utf-8')`):
valid sequences decode exactly; malformed bytes produce the replacement
character U+FFFD and decoding continues. -/
def utf8Decode : List Nat → List Nat
  | [] => []
  | b :: rest =>
    let p := utf8Step b rest
    p.1 :: utf8Decode p.2
termination_by l => l.length
decreasing_by
  have := utf8Step_length b rest
  simp only [List.length_cons]
  omega

theorem utf8Decode_encodeChar (c : Nat) (h : isScalar c = true) (tail : List Nat) :
    utf8Decode (utf8EncodeChar c ++ tail) = c :: utf8Decode tail := by
  rw [isScalar_iff] at h
  unfold utf8EncodeChar
  by_cases h1 : c < 0x80
  · simp only [if_pos h1, List.cons_append, List.nil_append]
    rw [utf8Decode]
    have hstep : utf8Step c tail = (c, tail) := by simp [utf8Step, h1]
    rw [hstep]
  · by_cases h2 : c < 0x800
    · simp only [if_neg h1, if_pos h2, List.cons_append, List.nil_append]
      rw [utf8Decode]
      have hstep : utf8Step (0xC0 + c / 64) ((0x80 + c % 64) :: tail) = (c, tail) := by
        have e1 : ¬ (0xC0 + c / 64 < 0x80) := by omega
        have e2 : 0xC0 + c / 64 < 0xE0 := by omega
        have e3 : 0xC2 ≤ 0xC0 + c / 64 := by omega
        have e4 : isCont (0x80 + c % 64) = true := by
          simp only [isCont, decide_eq_true_eq]; omega
        simp [utf8Step, e1, e2, e3, e4]
        omega
      rw [hstep]
    · by_cases h3 : c < 0x10000
      · have h4 : ¬ (0xD800 ≤ c ∧ c ≤ 0xDFFF) := by omega
        simp only [if_neg h1, if_neg h2, if_pos h3, if_neg h4, List.cons_append,
          List.nil_append]
        rw [utf8Decode]
        have hstep : utf8Step (0xE0 + c / 4096)
            ((0x80 + c / 64 % 64) :: (0x80 + c % 64) :: tail) = (c, tail) := by
          have e1 : ¬ (0xE0 + c / 4096 < 0x80) := by omega
          have e2 : ¬ (0xE0 + c / 4096 < 0xE0) := by omega
          have e3 : 0xE0 + c / 4096 < 0xF0 := by omega
          have e4 : isCont (0x80 + c / 64 % 64) = true := by
            simp only [isCont, decide_eq_true_eq]; omega
          have e5 : isCont (0x80 + c % 64) = true := by
            simp only [isCont, decide_eq_true_eq]; omega
          simp [utf8Step, e1, e2, e3, e4, e5]
          omega
        rw [hstep]
      · simp only [if_neg h1, if_neg h2, if_neg h3, List.cons_append, List.nil_append]
        rw [utf8Decode]
        have hstep : utf8Step (0xF0 + c / 262144)
            ((0x80 + c / 4096 % 64) :: (0x80 + c / 64 % 64) :: (0x80 + c % 64) :: tail)
            = (c, tail) := by
          have e1 : ¬ (0xF0 + c / 262144 < 0x80) := by omega
          have e2 : ¬ (0xF0 + c / 262144 < 0xE0) := by omega
          have e3 : ¬ (0xF0 + c / 262144 < 0xF0) := by omega
          have e4 : isCont (0x80 + c / 4096 % 64) = true := by
            simp only [isCont, decide_eq_true_eq]; omega
          have e5 : isCont (0x80 + c / 64 % 64) = true := by
            simp only [isCont, decide_eq_true_eq]; omega
          have e6 : isCont (0x80 + c % 64) = true := by
            simp only [isCont, decide_eq_true_eq]; omega
          simp [utf8Step, e1, e2, e3, e4, e5, e6]
          omega
        rw [hstep]

/-- Round trip: UTF-8 decoding inverts UTF-8 encoding on well-formed strings. -/
theorem utf8Decode_utf8Encode (s : JSString) (h : Scalar s) :
    utf8Decode (utf8Encode s) = s := by
  induction s with
  | nil => simp [utf8Encode, utf8Decode]
  | cons c rest ih =>
    have hc : isScalar c = true := h c (List.mem_cons_self _ _)
    have hrest : Scalar rest := fun x hx => h x (List.mem_cons_of_mem _ hx)
    simp only [utf8Encode, List.flatMap_cons] at ih ⊢
    rw [utf8Decode_encodeChar c hc, ih hrest]

/-- Every byte produced by UTF-8 encoding a well-formed string is below 256. -/
theorem utf8Encode_lt_256 (s : JSString) (h : Scalar s) :
    ∀ b ∈ utf8Encode s, b < 256 := by
  intro b hb
  simp only [utf8Encode, List.mem_flatMap] at hb
  rcases hb with ⟨c, hc, hb⟩
  have hsc := (isScalar_iff c).mp (h c hc)
  simp only [utf8EncodeChar] at hb
  split at hb
  · simp only [List.mem_singleton] at hb; omega
  · split at hb
    · simp only [List.mem_cons, List.mem_singleton, List.not_mem_nil, or_false] at hb
      rcases hb with h1 | h1 <;> omega
    · split at hb
      · split at hb
        · simp only [List.mem_cons, List.mem_singleton, List.not_mem_nil, or_false] at hb
          rcases hb with h1 | h1 | h1 <;> omega
        · simp only [List.mem_cons, List.mem_singleton, List.not_mem_nil, or_false] at hb
          rcases hb with h1 | h1 | h1 <;> omega
      · simp only [List.mem_cons, List.mem_singleton, List.not_mem_nil, or_false] at hb
        rcases hb with h1 | h1 | h1 | h1 <;> omega

/-! ## Base64 and hex byte codecs (Node `Buffer` platform primitives)

`encodeBase64`/`decodeBase64`/`encodeHex`/`decodeHex` in
`src/core/encoding.ts` are thin wrappers over `Buffer.from(...).toString(...)`.
The Buffer codecs are embedded here with Node's observable behaviour:
base64 encoding emits the standard alphabet with `=` padding, base64 decoding
ignores every character outside the alphabet; hex encoding emits lowercase
digit pairs, hex decoding stops at the first invalid pair (or odd trailing
character), returning the bytes decoded so far. -/

/-- Code point of the base64 alphabet character for a 6-bit value. -/
def b64CharOf (n : Nat) : Nat :=
  if n < 26 then 65 + n
  else if n < 52 then 97 + (n - 26)
  else if n < 62 then 48 + (n - 52)
  else if n = 62 then 43
  else 47

/-- 6-bit value of a base64 alphabet code point (`none` for everything else,
including the `=` padding character, which Node's decoder skips). -/
def b64ValOf (c : Nat) : Option Nat :=
  if 65 ≤ c ∧ c ≤ 90 then some (c - 65)
  else if 97 ≤ c ∧ c ≤ 122 then some (c - 97 + 26)
  else if 48 ≤ c ∧ c ≤ 57 then some (c - 48 + 52)
  else if c = 43 then some 62
  else if c = 47 then some 63
  else none

/-- Base64-encode a byte list, three bytes at a time, padding with `=`
(code point 61), as `buf.toString('base64')` does. -/
def encodeB64Bytes : List Nat → List Nat
  | [] => []
  | [b0] => [b64CharOf (b0 / 4), b64CharOf (b0 % 4 * 16), 61, 61]
  | [b0, b1] => [b64CharOf (b0 / 4), b64CharOf (b0 % 4 * 16 + b1 / 16),
      b64CharOf (b1 % 16 * 4), 61]
  | b0 :: b1 :: b2 :: rest =>
      b64CharOf (b0 / 4) :: b64CharOf (b0 % 4 * 16 + b1 / 16)
        :: b64CharOf (b1 % 16 * 4 + b2 / 64) :: b64CharOf (b2 % 64)
        :: encodeB64Bytes rest

/-- Recombine a list of 6-bit values into bytes, four values at a time, with
Node's handling of a trailing group of two or three values. -/
def decodeB64Vals : List Nat → List Nat
  | v0 :: v1 :: v2 :: v3 :: rest =>
      (v0 * 4 + v1 / 16) :: (v1 % 16 * 16 + v2 / 4) :: (v2 % 4 * 64 + v3)
        :: decodeB64Vals rest
  | [v0, v1] => [v0 * 4 + v1 / 16]
  | [v0, v1, v2] => [v0 * 4 + v1 / 16, v1 % 16 * 16 + v2 / 4]
  | _ => []

/-- Code point of the lowercase hex digit for a 4-bit value. -/
def hexCharOf (n : Nat) : Nat := if n < 10 then 48 + n else 87 + n

/-- 4-bit value of a hex digit code point (`none` otherwise). -/
def hexValOf (c : Nat) : Option Nat :=
  if 48 ≤ c ∧ c ≤ 57 then some (c - 48)
  else if 97 ≤ c ∧ c ≤ 102 then some (c - 87)
  else if 65 ≤ c ∧ c ≤ 70 then some (c - 55)
  else none

/-- Hex-encode a byte list as lowercase digit pairs
(`buf.toString('hex')`). -/
def encodeHexBytes : List Nat → List Nat
  | [] => []
  | b :: rest => hexCharOf (b / 16) :: hexCharOf (b % 16) :: encodeHexBytes rest

/-- Decode hex code points two at a time; Node's `Buffer.from(s, 'hex')`
truncates at the first invalid pair or odd trailing character. -/
def decodeHexChars : List Nat → List Nat
  | c0 :: c1 :: rest =>
      match hexValOf c0, hexValOf c1 with
      | some h, some l => (h * 16 + l) :: decodeHexChars rest
      | _, _ => []
  | _ => []

theorem b64ValOf_b64CharOf : ∀ n < 64, b64ValOf (b64CharOf n) = some n := by decide

theorem hexValOf_hexCharOf : ∀ n < 16, hexValOf (hexCharOf n) = some n := by decide

theorem b64ValOf_padding : b64ValOf 61 = none := by decide

theorem decodeB64_encodeB64 (bytes : List Nat) (h : ∀ b ∈ bytes, b < 256) :
    decodeB64Vals ((encodeB64Bytes bytes).filterMap b64ValOf) = bytes := by
  induction bytes using encodeB64Bytes.induct with
  | case1 => rfl
  | case2 b0 =>
    have hb0 : b0 < 256 := h b0 (by simp)
    have v0 := b64ValOf_b64CharOf (b0 / 4) (by omega)
    have v1 := b64ValOf_b64CharOf (b0 % 4 * 16) (by omega)
    simp only [encodeB64Bytes, List.filterMap_cons, v0, v1, b64ValOf_padding,
      List.filterMap_nil, decodeB64Vals, List.cons.injEq, and_true]
    omega
  | case3 b0 b1 =>
    have hb0 : b0 < 256 := h b0 (by simp)
    have hb1 : b1 < 256 := h b1 (by simp)
    have v0 := b64ValOf_b64CharOf (b0 / 4) (by omega)
    have v1 := b64ValOf_b64CharOf (b0 % 4 * 16 + b1 / 16) (by omega)
    have v2 := b64ValOf_b64CharOf (b1 % 16 * 4) (by omega)
    simp only [encodeB64Bytes, List.filterMap_cons, v0, v1, v2, b64ValOf_padding,
      List.filterMap_nil, decodeB64Vals, List.cons.injEq, and_true]
    omega
  | case4 b0 b1 b2 rest ih =>
    have hb0 : b0 < 256 := h b0 (by simp)
    have hb1 : b1 < 256 := h b1 (by simp)
    have hb2 : b2 < 256 := h b2 (by simp)
    have hrest : ∀ b ∈ rest, b < 256 := fun b hb => h b (by simp [hb])
    have v0 := b64ValOf_b64CharOf (b0 / 4) (by omega)
    have v1 := b64ValOf_b64CharOf (b0 % 4 * 16 + b1 / 16) (by omega)
    have v2 := b64ValOf_b64CharOf (b1 % 16 * 4 + b2 / 64) (by omega)
    have v3 := b64ValOf_b64CharOf (b2 % 64) (by omega)
    simp only [encodeB64Bytes, List.filterMap_cons, v0, v1, v2, v3, decodeB64Vals,
      ih hrest, List.cons.injEq, and_true]
    omega

theorem decodeHex_encodeHex (bytes : List Nat) (h : ∀ b ∈ bytes, b < 256) :
    decodeHexChars (encodeHexBytes bytes) = bytes := by
  induction bytes with
  | nil => rfl
  | cons b rest ih =>
    have hb : b < 256 := h b (by simp)
    have hrest : ∀ x ∈ rest, x < 256 := fun x hx => h x (by simp [hx])
    have v0 := hexValOf_hexCharOf (b / 16) (by omega)
    have v1 := hexValOf_hexCharOf (b % 16) (by omega)
    simp only [encodeHexBytes, decodeHexChars, v0, v1, ih hrest]
    congr 1
    omega

/-! ## The encoding module (`src/core/encoding.ts`) -/

/-- `encodeBase64(value)`: `Buffer.from(value, 'utf-8').toString('base64')`. -/
def encodeBase64 (value : JSString) : JSString := encodeB64Bytes (utf8Encode value)

/-- `decodeBase64(value)`: `Buffer.from(value, 'base64').toString('utf-8')`. -/
def decodeBase64 (value : JSString) : JSString :=
  utf8Decode (decodeB64Vals (value.filterMap b64ValOf))

/-- `encodeHex(value)`: `Buffer.from(value, 'utf-8').toString('hex')`. -/
def encodeHex (value : JSString) : JSString := encodeHexBytes (utf8Encode value)

/-- `decodeHex(value)`: `Buffer.from(value, 'hex').toString('utf-8')`. -/
def decodeHex (value : JSString) : JSString := utf8Decode (decodeHexChars value)

/-- One character of `encodeRot13`: the regex `/[a-zA-Z]/` rotates letters by
13 within their case, `base = char <= 'Z' ? 65 : 97`. -/
def rot13Char (c : Nat) : Nat :=
  if 65 ≤ c ∧ c ≤ 90 then (c - 65 + 13) % 26 + 65
  else if 97 ≤ c ∧ c ≤ 122 then (c - 97 + 13) % 26 + 97
  else c

/-- `encodeRot13(value)`. -/
def encodeRot13 (value : JSString) : JSString := value.map rot13Char

/-- `decodeRot13(value)`: the source returns `encodeRot13(value)`. -/
def decodeRot13 (value : JSString) : JSString := encodeRot13 value

/-- `encode(value, encoding)` from `src/core/encoding.ts`; the `default`
branch throws `Unknown encoding type`, modelled as `none`. -/
def encode (value : JSString) (encoding : String) : Option JSString :=
  if encoding = "plain" then some value
  else if encoding = "base64" then some (encodeBase64 value)
  else if encoding = "hex" then some (encodeHex value)
  else if encoding = "rot13" then some (encodeRot13 value)
  else none

/-- `decode(value, encoding)` from `src/core/encoding.ts`; the `default`
branch throws `Unknown encoding type`, modelled as `none`. -/
def decode (value : JSString) (encoding : String) : Option JSString :=
  if encoding = "plain" then some value
  else if encoding = "base64" then some (decodeBase64 value)
  else if encoding = "hex" then some (decodeHex value)
  else if encoding = "rot13" then some (decodeRot13 value)
  else none

theorem rot13Char_involutive (c : Nat) : rot13Char (rot13Char c) = c := by
  unfold rot13Char
  by_cases h1 : 65 ≤ c ∧ c ≤ 90
  · rw [if_pos h1,
      if_pos (by omega : 65 ≤ (c - 65 + 13) % 26 + 65 ∧ (c - 65 + 13) % 26 + 65 ≤ 90)]
    omega
  · by_cases h2 : 97 ≤ c ∧ c ≤ 122
    · rw [if_neg h1, if_pos h2,
        if_neg (by omega : ¬ (65 ≤ (c - 97 + 13) % 26 + 97 ∧ (c - 97 + 13) % 26 + 97 ≤ 90)),
        if_pos (by omega : 97 ≤ (c - 97 + 13) % 26 + 97 ∧ (c - 97 + 13) % 26 + 97 ≤ 122)]
      omega
    · rw [if_neg h1, if_neg h2, if_neg h1, if_neg h2]

theorem encodeRot13_involutive (value : JSString) :
    encodeRot13 (encodeRot13 value) = value := by
  simp only [encodeRot13, List.map_map]
  have : rot13Char ∘ rot13Char = id := by
    funext c
    exact rot13Char_involutive c
  rw [this, List.map_id]

/-- Assembled round trip for base64 on well-formed strings. -/
theorem decodeBase64_encodeBase64 (s : JSString) (h : Scalar s) :
    decodeBase64 (encodeBase64 s) = s := by
  unfold decodeBase64 encodeBase64
  rw [decodeB64_encodeB64 _ (utf8Encode_lt_256 s h), utf8Decode_utf8Encode s h]

/-- Assembled round trip for hex on well-formed strings. -/
theorem decodeHex_encodeHex_str (s : JSString) (h : Scalar s) :
    decodeHex (encodeHex s) = s := by
  unfold decodeHex encodeHex
  rw [decodeHex_encodeHex _ (utf8Encode_lt_256 s h), utf8Decode_utf8Encode s h]

/-! ## Crypto utilities (`src/utils/crypto.ts`) -/

/-- JavaScript `string.length`: the number of UTF-16 code units (astral code
points count twice). -/
def utf16Length (s : JSString) : Nat :=
  (s.map (fun c => if 0x10000 ≤ c then 2 else 1)).sum

/-- `safeCompare(a, b)` from `src/utils/crypto.ts`: returns `false` on a
UTF-16 length mismatch, then compares the UTF-8 byte buffers with
`timingSafeEqual`, whose exception on buffers of different byte length is
caught and converted to `false`. -/
def safeCompare (a b : JSString) : Bool :=
  if utf16Length a ≠ utf16Length b then false
  else if (utf8Encode a).length ≠ (utf8Encode b).length then false
  else decide (utf8Encode a = utf8Encode b)

theorem safeCompare_refl (a : JSString) : safeCompare a a = true := by
  simp [safeCompare]

/-- `safeCompare` decides equality of well-formed strings. -/
theorem safeCompare_eq_true_iff (a b : JSString) (ha : Scalar a) (hb : Scalar b) :
    safeCompare a b = true ↔ a = b := by
  constructor
  · intro h
    unfold safeCompare at h
    split at h
    · exact absurd h (by simp)
    · split at h
      · exact absurd h (by simp)
      · have henc : utf8Encode a = utf8Encode b := of_decide_eq_true h
        have := utf8Decode_utf8Encode a ha
        rw [henc, utf8Decode_utf8Encode b hb] at this
        exact this.symm
  · intro h
    rw [h]
    exact safeCompare_refl b

/-- `safeCompare` only returns `true` on strings with equal UTF-8 encodings
(needed for completeness of signature checks). -/
theorem safeCompare_eq_false_of_ne (a b : JSString) (ha : Scalar a) (hb : Scalar b)
    (h : a ≠ b) : safeCompare a b = false := by
  rcases hsc : safeCompare a b with _ | _
  · rfl
  · exact absurd ((safeCompare_eq_true_iff a b ha hb).mp hsc) h

/-! ### `randomInt` (`src/utils/crypto.ts`)

```
const range = max - min + 1;
const bytesNeeded = Math.ceil(Math.log2(range) / 8) || 1;
const maxValid = Math.floor(256 ** bytesNeeded / range) * range - 1;
do { sample bytesNeeded bytes; randomValue := little-endian value }
while (randomValue > maxValid);
return min + (randomValue % range);
```

The CSPRNG byte stream is modelled as a list of byte chunks; the rejection
loop walks it and returns `none` if every chunk is rejected (the real loop
would keep sampling). `Math.ceil(Math.log2 range / 8)` is
`Nat.clog 256 range` for `range ≥ 1`, and `|| 1` maps the value `0` (from
`range = 1`) to `1`. -/

/-- Little-endian value of a byte chunk:
`bytes.reduce((acc, byte, i) => acc + byte * 256 ** i, 0)`. -/
def bytesLE : List Nat → Nat
  | [] => 0
  | b :: rest => b + 256 * bytesLE rest

/-- `range = max - min + 1` as a natural number (positive when `min ≤ max`). -/
def rangeOf (min max : Int) : Nat := (max - min + 1).toNat

/-- `bytesNeeded = Math.ceil(Math.log2(range) / 8) || 1`. -/
def bytesNeededOf (range : Nat) : Nat := Nat.max (Nat.clog 256 range) 1

/-- `maxValid = Math.floor(256 ** bytesNeeded / range) * range - 1`. -/
def maxValidOf (range : Nat) : Nat :=
  256 ^ bytesNeededOf range / range * range - 1

/-- `min + (randomValue % range)` for an accepted candidate. -/
def randomIntResult (min max : Int) (v : Nat) : Int :=
  min + ((v % rangeOf min max : Nat) : Int)

/-- The rejection-sampling loop of `randomInt`, over an explicit stream of
byte chunks; `none` models a stream that never yields an accepted
candidate. -/
def randomIntLoop (min max : Int) : List (List Nat) → Option Int
  | [] => none
  | chunk :: rest =>
    if bytesLE chunk ≤ maxValidOf (rangeOf min max) then
      some (randomIntResult min max (bytesLE chunk))
    else randomIntLoop min max rest

theorem rangeOf_pos (min max : Int) (h : min ≤ max) : 0 < rangeOf min max := by
  unfold rangeOf
  omega

/-- `256 ^ bytesNeeded ≥ range`: the sampled byte width always covers the
range. -/
theorem range_le_pow (range : Nat) (_h : 0 < range) :
    range ≤ 256 ^ bytesNeededOf range := by
  have h1 : range ≤ 256 ^ Nat.clog 256 range := Nat.le_pow_clog (by norm_num) range
  calc range ≤ 256 ^ Nat.clog 256 range := h1
    _ ≤ 256 ^ bytesNeededOf range := by
        apply Nat.pow_le_pow_right (by norm_num)
        exact Nat.le_max_left _ _

theorem randomIntResult_mem (min max : Int) (h : min ≤ max) (v : Nat) :
    min ≤ randomIntResult min max v ∧ randomIntResult min max v ≤ max := by
  unfold randomIntResult
  have hpos : 0 < rangeOf min max := rangeOf_pos min max h
  have hmod : v % rangeOf min max < rangeOf min max := Nat.mod_lt v hpos
  unfold rangeOf at hmod hpos ⊢
  omega

/-- Counting residues: among `0 ≤ v < q * r`, exactly `q` values have
`v % r = t0`. -/
theorem card_mod_filter (r q N t0 : Nat) (hrpos : 0 < r) (hqrN : q * r ≤ N)
    (ht0 : t0 < r) :
    (Finset.filter (fun v => v < q * r ∧ v % r = t0) (Finset.range N)).card = q := by
  have hcard : (Finset.filter (fun v => v < q * r ∧ v % r = t0) (Finset.range N)).card
      = (Finset.range q).card := by
    apply Finset.card_bij' (fun v _ => v / r) (fun k _ => t0 + k * r)
    · intro v hv
      simp only [Finset.mem_filter, Finset.mem_range] at hv
      simp only [Finset.mem_range]
      exact Nat.div_lt_of_lt_mul (by rw [Nat.mul_comm]; omega)
    · intro k hk
      simp only [Finset.mem_range] at hk
      simp only [Finset.mem_filter, Finset.mem_range]
      have hlt : t0 + k * r < q * r := by
        have hstep : (k + 1) * r ≤ q * r := Nat.mul_le_mul_right r (by omega)
        rw [Nat.add_mul, one_mul] at hstep
        omega
      refine ⟨by omega, hlt, ?_⟩
      rw [Nat.add_mul_mod_self_right]
      exact Nat.mod_eq_of_lt ht0
    · intro v hv
      simp only [Finset.mem_filter, Finset.mem_range] at hv
      rcases hv with ⟨_, _, hmod⟩
      rw [← hmod, Nat.mod_add_div' v r]
    · intro k hk
      simp only [Finset.mem_range] at hk
      rw [Nat.add_mul_div_right _ _ hrpos, Nat.div_eq_of_lt ht0]
      omega
  rw [hcard, Finset.card_range]

/-- Each target value of `[min, max]` is hit by exactly
`256 ^ bytesNeeded / range` accepted candidates: rejection sampling is
uniform. -/
theorem card_accepted_candidates (min max : Int) (h : min ≤ max) (t : Int)
    (ht1 : min ≤ t) (ht2 : t ≤ max) :
    (Finset.filter
      (fun v => v ≤ maxValidOf (rangeOf min max) ∧ randomIntResult min max v = t)
      (Finset.range (256 ^ bytesNeededOf (rangeOf min max)))).card
      = 256 ^ bytesNeededOf (rangeOf min max) / rangeOf min max := by
  obtain ⟨r, hr⟩ : ∃ r, rangeOf min max = r := ⟨_, rfl⟩
  obtain ⟨N, hN⟩ : ∃ N, 256 ^ bytesNeededOf r = N := ⟨_, rfl⟩
  obtain ⟨q, hq⟩ : ∃ q, N / r = q := ⟨_, rfl⟩
  have hrpos : 0 < r := hr ▸ rangeOf_pos min max h
  have hrN : r ≤ N := hN ▸ range_le_pow r hrpos
  have hqpos : 0 < q := by
    rw [← hq]
    exact (Nat.le_div_iff_mul_le hrpos).mpr (by omega)
  have hqrN : q * r ≤ N := by
    rw [← hq]
    exact Nat.div_mul_le_self N r
  have hqr1 : 1 ≤ q * r := Nat.mul_pos hqpos hrpos
  have hmv : maxValidOf r = q * r - 1 := by
    unfold maxValidOf
    rw [hN, hq]
  have hrInt : (r : Int) = max - min + 1 := by
    rw [← hr]
    unfold rangeOf
    omega
  obtain ⟨t0, ht0⟩ : ∃ t0 : Nat, (t0 : Int) = t - min := ⟨(t - min).toNat, by omega⟩
  have ht0r : t0 < r := by omega
  have hfilter : Finset.filter
      (fun v => v ≤ maxValidOf (rangeOf min max) ∧ randomIntResult min max v = t)
      (Finset.range (256 ^ bytesNeededOf (rangeOf min max)))
      = Finset.filter (fun v => v < q * r ∧ v % r = t0) (Finset.range N) := by
    rw [hr, hN]
    apply Finset.filter_congr
    intro v _
    rw [hmv]
    unfold randomIntResult
    rw [hr]
    have hmod : v % r < r := Nat.mod_lt v hrpos
    have hcomm : q * r = r * q := Nat.mul_comm q r
    constructor
    · rintro ⟨h1, h2⟩
      exact ⟨by omega, by omega⟩
    · rintro ⟨h1, h2⟩
      exact ⟨by omega, by omega⟩
  rw [hfilter, card_mod_filter r q N t0 hrpos hqrN ht0r, hr, hN, hq]

/-! ## JavaScript `Map` objects as association lists -/

/-- `map.get(key)`. -/
def mapFind {β : Type} : List (String × β) → String → Option β
  | [], _ => none
  | (k', v) :: rest, k => if k' = k then some v else mapFind rest k

/-- `map.delete(key)`. -/
def mapErase {β : Type} : List (String × β) → String → List (String × β)
  | [], _ => []
  | (k', v) :: rest, k =>
    if k' = k then mapErase rest k else (k', v) :: mapErase rest k

/-- `map.set(key, value)` (and in-place mutation of a stored entry). -/
def mapSet {β : Type} (l : List (String × β)) (k : String) (v : β) :
    List (String × β) :=
  (k, v) :: mapErase l k

theorem mapFind_mapErase_self {β : Type} (l : List (String × β)) (k : String) :
    mapFind (mapErase l k) k = none := by
  induction l with
  | nil => rfl
  | cons p rest ih =>
    obtain ⟨k0, v⟩ := p
    by_cases hp : k0 = k
    · rw [mapErase, if_pos hp]
      exact ih
    · rw [mapErase, if_neg hp, mapFind, if_neg hp]
      exact ih

theorem mapFind_mapErase_ne {β : Type} (l : List (String × β)) (k k' : String)
    (h : k' ≠ k) : mapFind (mapErase l k) k' = mapFind l k' := by
  induction l with
  | nil => rfl
  | cons p rest ih =>
    obtain ⟨k0, v⟩ := p
    by_cases hp : k0 = k
    · subst hp
      rw [mapErase, if_pos rfl, mapFind, if_neg (fun hc => h hc.symm)]
      exact ih
    · rw [mapErase, if_neg hp, mapFind, mapFind]
      by_cases hk : k0 = k'
      · rw [if_pos hk, if_pos hk]
      · rw [if_neg hk, if_neg hk]
        exact ih

theorem mapFind_mapSet_self {β : Type} (l : List (String × β)) (k : String) (v : β) :
    mapFind (mapSet l k v) k = some v := by
  simp [mapSet, mapFind]

theorem mapFind_mapSet_ne {β : Type} (l : List (String × β)) (k k' : String) (v : β)
    (h : k' ≠ k) : mapFind (mapSet l k v) k' = mapFind l k' := by
  rw [mapSet, mapFind, if_neg (fun hc => h hc.symm)]
  exact mapFind_mapErase_ne l k k' h

/-! ## Rate limiter (`src/utils/rate-limiter.ts`) -/

/-- Rate limiter configuration. -/
structure RateLimitConfig where
  maxAttempts : Nat
  windowMs : Int
deriving DecidableEq

/-- Per-key entry: `{count, resetAt}`. -/
structure RateLimitEntry where
  count : Nat
  resetAt : Int
deriving DecidableEq

/-- Result of `recordAttempt`. -/
structure RateLimitResult where
  allowed : Bool
  remaining : Nat
  resetAt : Int
deriving DecidableEq

/-- The rate limiter's `entries` map. -/
abbrev RateState := List (String × RateLimitEntry)

/-- `RateLimiter.recordAttempt(key)`; `now` is `Date.now()`.  A missing or
elapsed entry is replaced by a fresh `{count: 0, resetAt: now + windowMs}`;
a saturated entry denies without incrementing; otherwise `entry.count++`
and the attempt is allowed. -/
def recordAttempt (cfg : RateLimitConfig) (key : String) (now : Int)
    (st : RateState) : RateLimitResult × RateState :=
  let e0 := mapFind st key
  let entry : RateLimitEntry :=
    match e0 with
    | none => ⟨0, now + cfg.windowMs⟩
    | some e => if e.resetAt < now then ⟨0, now + cfg.windowMs⟩ else e
  let st1 : RateState :=
    match e0 with
    | none => mapSet st key entry
    | some e => if e.resetAt < now then mapSet st key entry else st
  if cfg.maxAttempts ≤ entry.count then
    (⟨false, 0, entry.resetAt⟩, st1)
  else
    (⟨true, cfg.maxAttempts - (entry.count + 1), entry.resetAt⟩,
      mapSet st1 key ⟨entry.count + 1, entry.resetAt⟩)

/-- `RateLimiter.reset(key)`: `entries.delete(key)`. -/
def rateReset (st : RateState) (key : String) : RateState := mapErase st key

/-! ## Core types (`src/core/types.ts`) -/

/-- A JavaScript value appearing in `parameters: unknown[]` (the generator
only ever produces numbers, strings and number arrays; registry functions may
also return booleans). -/
inductive JsValue where
  | num (n : Int)
  | str (s : String)
  | boolVal (b : Bool)
  | numArr (l : List Int)
deriving DecidableEq

/-- `ChainedOperation {operation, value?}`.  The operand is kept as an exact
rational, standing in for the JS number. -/
structure ChainedOp where
  operation : String
  value : Option Rat
deriving DecidableEq

/-- The five `ChallengePayload` variants. Each carries its
`responseEncoding`. -/
inductive ChallengePayload where
  | functionExecution (functionName : String) (functionCode : String)
      (parameters : List JsValue) (responseEncoding : String)
  | chainedOperations (initialValue : Int) (operations : List ChainedOp)
      (responseEncoding : String)
  | encodedInstruction (instruction : JSString) (instructionEncoding : String)
      (responseEncoding : String)
  | patternExtraction (items : List (Nat × Int)) (query : String)
      (responseEncoding : String)
  | codeTransform (code : String) (transform : String) (responseEncoding : String)
deriving DecidableEq

/-- `Challenge`. -/
structure Challenge where
  id : String
  type : String
  difficulty : String
  payload : ChallengePayload
  expiresAt : Int
  signature : JSString
deriving DecidableEq

/-- `ChallengeSolution {challengeId, solution}`. -/
structure ChallengeSolution where
  challengeId : String
  solution : JSString
deriving DecidableEq

/-- The object serialized for signing:
`{id, type, payload, expiresAt, expectedAnswer}`. -/
structure SigData where
  id : String
  type : String
  payload : ChallengePayload
  expiresAt : Int
  expectedAnswer : JSString
deriving DecidableEq

/-- `VerificationErrorCode`. -/
inductive VerificationErrorCode where
  | RATE_LIMITED
  | CHALLENGE_NOT_FOUND
  | EXPIRED
  | INVALID_SIGNATURE
  | INVALID_SOLUTION
deriving DecidableEq

/-- `VerificationResult {valid, errorCode?}`.  The human-readable `error`
message string is not modelled; every claim concerns `valid`/`errorCode`. -/
structure VerificationResult where
  valid : Bool
  errorCode : Option VerificationErrorCode
deriving DecidableEq

/-- Server-side store entry `{expectedAnswer, expiresAt}`. -/
structure StoreEntry where
  expectedAnswer : JSString
  expiresAt : Int
deriving DecidableEq

/-- `Required<UnCaptchaConfig>` after the constructor merged defaults. -/
structure UnCaptchaConfig where
  secret : JSString
  difficulty : String
  challengeTypes : List String
  expirationMs : Int
  rateLimit : RateLimitConfig

/-! ## Challenge verifier (`src/core/verifier.ts`)

The verifier is parameterised over the two platform primitives it composes:
`stringify : SigData → JSString` (`JSON.stringify` of the object literal with
insertion-ordered keys) and `sign : JSString → JSString → JSString`
(`signChallenge(data, secret)`, the hex HMAC-SHA256 digest). -/

/-- The verifier's mutable state: the challenge store plus the owned rate
limiter's entries. -/
structure VerifierState where
  challengeStore : List (String × StoreEntry)
  rate : RateState
deriving DecidableEq

/-- `storeChallenge(challengeId, expectedAnswer, expiresAt)`. -/
def storeChallenge (st : VerifierState) (challengeId : String)
    (expectedAnswer : JSString) (expiresAt : Int) : VerifierState :=
  { st with challengeStore :=
      mapSet st.challengeStore challengeId ⟨expectedAnswer, expiresAt⟩ }

/-- `ChallengeVerifier.verify(challenge, solution, clientIdentifier)`.
`clientKey` is the caller-resolved `clientIdentifier || 'anonymous'` and
`now` is `Date.now()` (the code reads the clock more than once per call;
a single instant is used here, which is the claims' reading). -/
def verify (stringify : SigData → JSString) (sign : JSString → JSString → JSString)
    (cfg : UnCaptchaConfig) (challenge : Challenge) (solution : ChallengeSolution)
    (clientKey : String) (now : Int) (st : VerifierState) :
    VerificationResult × VerifierState :=
  let rl := recordAttempt cfg.rateLimit clientKey now st.rate
  let st1 : VerifierState := { st with rate := rl.2 }
  if rl.1.allowed = false then
    (⟨false, some .RATE_LIMITED⟩, st1)
  else if challenge.id ≠ solution.challengeId then
    (⟨false, some .CHALLENGE_NOT_FOUND⟩, st1)
  else if challenge.expiresAt < now then
    (⟨false, some .EXPIRED⟩, st1)
  else
    match mapFind st1.challengeStore challenge.id with
    | none => (⟨false, some .CHALLENGE_NOT_FOUND⟩, st1)
    | some stored =>
      if stored.expiresAt < now then
        (⟨false, some .EXPIRED⟩,
          { st1 with challengeStore := mapErase st1.challengeStore challenge.id })
      else
        let signatureData := stringify ⟨challenge.id, challenge.type,
          challenge.payload, challenge.expiresAt, stored.expectedAnswer⟩
        let expectedSignature := sign signatureData cfg.secret
        if safeCompare challenge.signature expectedSignature = false then
          (⟨false, some .INVALID_SIGNATURE⟩, st1)
        else if safeCompare solution.solution stored.expectedAnswer = false then
          (⟨false, some .INVALID_SOLUTION⟩, st1)
        else
          (⟨true, none⟩,
            { challengeStore := mapErase st1.challengeStore challenge.id,
              rate := rateReset rl.2 clientKey })

/-- `ChallengeVerifier.verifyStateless(challenge, solution, clientIdentifier)`:
the signature is recomputed with the *submitted* solution in the
`expectedAnswer` field; no store access, no one-time-use enforcement. -/
def verifyStateless (stringify : SigData → JSString)
    (sign : JSString → JSString → JSString) (cfg : UnCaptchaConfig)
    (challenge : Challenge) (solution : ChallengeSolution) (clientKey : String)
    (now : Int) (st : VerifierState) : VerificationResult × VerifierState :=
  let rl := recordAttempt cfg.rateLimit clientKey now st.rate
  let st1 : VerifierState := { st with rate := rl.2 }
  if rl.1.allowed = false then
    (⟨false, some .RATE_LIMITED⟩, st1)
  else if challenge.id ≠ solution.challengeId then
    (⟨false, some .CHALLENGE_NOT_FOUND⟩, st1)
  else if challenge.expiresAt < now then
    (⟨false, some .EXPIRED⟩, st1)
  else
    let signatureData := stringify ⟨challenge.id, challenge.type,
      challenge.payload, challenge.expiresAt, solution.solution⟩
    let computedSignature := sign signatureData cfg.secret
    if safeCompare challenge.signature computedSignature = false then
      (⟨false, some .INVALID_SOLUTION⟩, st1)
    else
      (⟨true, none⟩, st1)

/-! ## Challenge generator (`src/core/generator.ts`)

Random draws (`randomBytes`-backed `randomInt`/`randomElement`, and
`Math.random` inside `getRandomFunction`) are modelled by consuming an
explicit entropy stream `List Nat`, one accepted candidate per draw:
`randomInt(min, max)` returns `min + n % range` for the drawn `n`, which by
`randomIntLoop`'s analysis is exactly the set of values the rejection
sampler can deliver.  `generateId()` and `Date.now()` enter as the `id` and
`now` arguments.  Unbounded retry loops (`mutateWord`) take explicit fuel;
exhausted fuel, like every `throw`, is `none`. -/

/-- The entropy stream feeding the CSPRNG draws. -/
abbrev Entropy := List Nat

/-- Draw one value from the entropy stream (0 when exhausted). -/
def drawNat : Entropy → Nat × Entropy
  | [] => (0, [])
  | n :: rest => (n, rest)

/-- Model of `randomInt(min, max)`: the accepted candidate's value
`min + n % range`. -/
def randIntG (min max : Int) (s : Entropy) : Int × Entropy :=
  let p := drawNat s
  (randomIntResult min max p.1, p.2)

/-- Model of `randomElement(arr)`: throws (`none`) on an empty array,
otherwise `arr[randomInt(0, arr.length - 1)]`. -/
def randElemG {α : Type} (l : List α) (s : Entropy) : Option α × Entropy :=
  if l.length = 0 then (none, s)
  else
    let p := randIntG 0 (l.length - 1) s
    (l.get? p.1.toNat, p.2)

theorem randIntG_mem (min max : Int) (h : min ≤ max) (s : Entropy) :
    min ≤ (randIntG min max s).1 ∧ (randIntG min max s).1 ≤ max := by
  unfold randIntG
  exact randomIntResult_mem min max h _

theorem randElemG_mem {α : Type} (l : List α) (s : Entropy) (a : α) (s' : Entropy)
    (h : randElemG l s = (some a, s')) : a ∈ l := by
  unfold randElemG at h
  split at h
  · simp at h
  · simp only [Prod.mk.injEq] at h
    exact List.get?_mem h.1

/-- `String(n)` for an integral JS number. -/
def jsIntToString (n : Int) : String := toString n

/-- JavaScript string literal → code points. -/
def strToJS (s : String) : JSString := s.data.map Char.toNat

/-- JS `Math.trunc`-style truncation of an exact rational. -/
def jsTrunc (q : Rat) : Int := if 0 ≤ q then ⌊q⌋ else ⌈q⌉

/-- JS `%` (remainder, truncating towards zero) on exact rationals.  A zero
divisor gives NaN in JS; the generator never emits one (modulo operands are
drawn from `[10, 100]`). -/
def jsRem (a b : Rat) : Rat := a - b * (jsTrunc (a / b) : Rat)

/-- JS `Math.pow` restricted to the natural exponents the generator draws
(`randomInt(1, 3)`); other exponents are unreachable. -/
def jsPowRat (base e : Rat) : Rat :=
  if e.den = 1 ∧ 0 ≤ e.num then base ^ e.num.toNat else base

/-- `String(result)` for the values the engine renders: exact integers print
like JS integers; the non-integer branch is unreachable for generated
challenges (all reachable op chains preserve integrality). -/
def ratToJsString (q : Rat) : String :=
  if q.den = 1 then toString q.num else toString q.num ++ "/" ++ toString q.den

/-- `String(result)` for a registry function's return value. -/
def jsValueToString : JsValue → String
  | .num n => toString n
  | .str s => s
  | .boolVal b => if b then "true" else "false"
  | .numArr l => String.intercalate "," (l.map toString)

/-- `Math.max(...values)` for the nonempty arrays the generator builds. -/
def jsMaxList : List Int → Int
  | [] => 0
  | h :: t => t.foldl Max.max h

/-- `Math.min(...values)` for the nonempty arrays the generator builds. -/
def jsMinList : List Int → Int
  | [] => 0
  | h :: t => t.foldl Min.min h

/-- One step of the chained-operations running value (the second `switch` in
`generateChainedOperations`).  Operand-less application of a value-consuming
op is unreachable: the generator always stores the operand it drew. -/
def applyChainedOp (current : Rat) (op : String) (value : Option Rat) : Rat :=
  if op = "add" then match value with | some x => current + x | none => current
  else if op = "subtract" then match value with | some x => current - x | none => current
  else if op = "multiply" then match value with | some x => current * x | none => current
  else if op = "divide" then match value with | some x => current / x | none => current
  else if op = "modulo" then match value with | some x => jsRem current x | none => current
  else if op = "power" then match value with | some x => jsPowRat current x | none => current
  else if op = "floor" then ((⌊current⌋ : Int) : Rat)
  else if op = "ceil" then ((⌈current⌉ : Int) : Rat)
  else if op = "abs" then |current|
  else if op = "negate" then -current
  else current

/-- The operand draw for one chained operation (first `switch`): add/subtract
→ `[1,50]`, multiply → `[2,10]`, divide → `[2,5]` (dead: `divide` is never
in `availableOps`), modulo → `[10,100]`, power → `[1,3]`, others none. -/
def genOpValue (op : String) (s : Entropy) : Option Rat × Entropy :=
  if op = "add" ∨ op = "subtract" then
    let p := randIntG 1 50 s
    (some (p.1 : Rat), p.2)
  else if op = "multiply" then
    let p := randIntG 2 10 s
    (some (p.1 : Rat), p.2)
  else if op = "divide" then
    let p := randIntG 2 5 s
    (some (p.1 : Rat), p.2)
  else if op = "modulo" then
    let p := randIntG 10 100 s
    (some (p.1 : Rat), p.2)
  else if op = "power" then
    let p := randIntG 1 3 s
    (some (p.1 : Rat), p.2)
  else (none, s)

/-- The `for` loop of `generateChainedOperations`: draw an op, draw its
operand, record it, update the running value. -/
def genChainedOps (availableOps : List String) : Nat → Rat → List ChainedOp →
    Entropy → Option (List ChainedOp × Rat) × Entropy
  | 0, current, acc, s => (some (acc.reverse, current), s)
  | k + 1, current, acc, s =>
    let pOp := randElemG availableOps s
    match pOp.1 with
    | none => (none, pOp.2)
    | some op =>
      let pVal := genOpValue op pOp.2
      genChainedOps availableOps k (applyChainedOp current op pVal.1)
        (⟨op, pVal.1⟩ :: acc) pVal.2

/-- `getResponseEncoding(difficulty)`. -/
def getResponseEncoding (difficulty : String) (s : Entropy) :
    Option String × Entropy :=
  if difficulty = "easy" then (some "plain", s)
  else if difficulty = "medium" then randElemG ["plain", "base64"] s
  else if difficulty = "hard" then randElemG ["base64", "hex"] s
  else (none, s)

/-- `getInstructionEncoding(difficulty)`. -/
def getInstructionEncoding (difficulty : String) (s : Entropy) :
    Option String × Entropy :=
  if difficulty = "easy" then (some "base64", s)
  else if difficulty = "medium" then randElemG ["base64", "rot13"] s
  else if difficulty = "hard" then randElemG ["hex", "rot13"] s
  else (none, s)

/-- `generateChainedOperations(difficulty)`. -/
def generateChainedOperations (difficulty : String) (s : Entropy) :
    Option (ChallengePayload × JSString) × Entropy :=
  let operationCount : Nat :=
    if difficulty = "easy" then 3 else if difficulty = "medium" then 5 else 7
  let pInit := randIntG 10 100 s
  let initialValue := pInit.1
  let availableOps : List String :=
    ["add", "subtract", "multiply", "modulo", "floor", "abs"]
      ++ (if difficulty = "hard" then ["power", "ceil", "negate"] else [])
  let pOps := genChainedOps availableOps operationCount (initialValue : Rat) [] pInit.2
  match pOps.1 with
  | none => (none, pOps.2)
  | some (operations, currentValue) =>
    let pEnc := getResponseEncoding difficulty pOps.2
    match pEnc.1 with
    | none => (none, pEnc.2)
    | some responseEncoding =>
      match encode (strToJS (ratToJsString currentValue)) responseEncoding with
      | none => (none, pEnc.2)
      | some expectedAnswer =>
        (some (.chainedOperations initialValue operations responseEncoding,
          expectedAnswer), pEnc.2)

/-- `generateEncodedInstruction(difficulty)`. -/
def generateEncodedInstruction (difficulty : String) (s : Entropy) :
    Option (ChallengePayload × JSString) × Entropy :=
  let pA := randIntG 10 100 s
  let pB := randIntG 10 100 pA.2
  let a := pA.1
  let b := pB.1
  let pOp := randElemG ["+", "-", "*"] pB.2
  match pOp.1 with
  | none => (none, pOp.2)
  | some op =>
    let result : Int :=
      if op = "+" then a + b
      else if op = "-" then a - b
      else if op = "*" then a * b
      else a + b
    let instruction :=
      "Calculate: " ++ toString a ++ " " ++ op ++ " " ++ toString b
    let pIEnc := getInstructionEncoding difficulty pOp.2
    match pIEnc.1 with
    | none => (none, pIEnc.2)
    | some instructionEncoding =>
      let pREnc := getResponseEncoding difficulty pIEnc.2
      match pREnc.1 with
      | none => (none, pREnc.2)
      | some responseEncoding =>
        match encode (strToJS instruction) instructionEncoding with
        | none => (none, pREnc.2)
        | some encodedInstruction =>
          match encode (strToJS (toString result)) responseEncoding with
          | none => (none, pREnc.2)
          | some expectedAnswer =>
            (some (.encodedInstruction encodedInstruction instructionEncoding
              responseEncoding, expectedAnswer), pREnc.2)

/-- The `items` loop of `generatePatternExtraction`: ids are `1`-based. -/
def genItems : Nat → Nat → Entropy → List (Nat × Int) × Entropy
  | _, 0, s => ([], s)
  | i, k + 1, s =>
    let p := randIntG 10 100 s
    let rest := genItems (i + 1) k p.2
    ((i + 1, p.1) :: rest.1, rest.2)

/-- The four query aggregates of `generatePatternExtraction`. -/
def patternQueries : List (String × (List (Nat × Int) → Int)) :=
  [("sum(items[*].value)", fun data => (data.map (·.2)).sum),
   ("max(items[*].value)", fun data => jsMaxList (data.map (·.2))),
   ("min(items[*].value)", fun data => jsMinList (data.map (·.2))),
   ("count(items)", fun data => (data.length : Int))]

/-- `generatePatternExtraction(difficulty)`. -/
def generatePatternExtraction (difficulty : String) (s : Entropy) :
    Option (ChallengePayload × JSString) × Entropy :=
  let count : Nat :=
    if difficulty = "easy" then 3 else if difficulty = "medium" then 5 else 7
  let pItems := genItems 0 count s
  let items := pItems.1
  let pSel := randElemG patternQueries pItems.2
  match pSel.1 with
  | none => (none, pSel.2)
  | some selected =>
    let result := selected.2 items
    let pEnc := getResponseEncoding difficulty pSel.2
    match pEnc.1 with
    | none => (none, pEnc.2)
    | some responseEncoding =>
      match encode (strToJS (toString result)) responseEncoding with
      | none => (none, pEnc.2)
      | some expectedAnswer =>
        (some (.patternExtraction items selected.1 responseEncoding,
          expectedAnswer), pEnc.2)

/-- `generateCodeTransform(difficulty)`. -/
def generateCodeTransform (difficulty : String) (s : Entropy) :
    Option (ChallengePayload × JSString) × Entropy :=
  let pA := randIntG 1 20 s
  let pB := randIntG 1 20 pA.2
  let a := pA.1
  let b := pB.1
  let code := "const x = " ++ toString a ++ "; const y = " ++ toString b
    ++ "; return x + y;"
  let result := a + b
  let pEnc := getResponseEncoding difficulty pB.2
  match pEnc.1 with
  | none => (none, pEnc.2)
  | some responseEncoding =>
    match encode (strToJS (toString result)) responseEncoding with
    | none => (none, pEnc.2)
    | some expectedAnswer =>
      (some (.codeTransform code "execute" responseEncoding, expectedAnswer),
        pEnc.2)

/-- A registry entry (`RegisteredFunction`): the puzzle-function catalog is
an external collaborator, so the generator is parameterised over it. -/
structure RegisteredFunction where
  name : String
  difficulty : String
  fn : List JsValue → JsValue

/-- `getRandomFunction(difficulty)`: filter the registry by difficulty,
throw on an empty pool, otherwise pick `pool[Math.floor(Math.random() *
pool.length)]` (the index draw consumes one entropy value). -/
def getRandomFunction (registry : List RegisteredFunction) (difficulty : String)
    (s : Entropy) : Option RegisteredFunction × Entropy :=
  let pool := registry.filter (fun f => f.difficulty = difficulty)
  if pool.length = 0 then (none, s)
  else
    let p := drawNat s
    (pool.get? (p.1 % pool.length), p.2)

/-- The word list of `generateRandomWords`. -/
def wordsList : List String :=
  ["hello", "world", "test", "code", "data", "alpha", "beta", "gamma"]

/-- The loop of `generateRandomWords(count)`. -/
def genWordsGo : Nat → List String → Entropy → Option (List String) × Entropy
  | 0, acc, s => (some acc.reverse, s)
  | k + 1, acc, s =>
    let p := randElemG wordsList s
    match p.1 with
    | none => (none, p.2)
    | some w => genWordsGo k (w :: acc) p.2

/-- `generateRandomWords(count)`: `count` draws joined by spaces. -/
def genWords (count : Nat) (s : Entropy) : Option String × Entropy :=
  let p := genWordsGo count [] s
  match p.1 with
  | none => (none, p.2)
  | some ws => (some (String.intercalate " " ws), p.2)

/-- The alphabet of `generateRandomWord` and `mutateWord`. -/
def alphabetChars : List Char := "abcdefghijklmnopqrstuvwxyz".data

/-- The loop of `generateRandomWord(length)`:
`chars[randomInt(0, chars.length - 1)]` per character. -/
def genWordGo : Nat → List Char → Entropy → Option (List Char) × Entropy
  | 0, acc, s => (some acc.reverse, s)
  | k + 1, acc, s =>
    let p := randIntG 0 25 s
    match alphabetChars.get? p.1.toNat with
    | none => (none, p.2)
    | some c => genWordGo k (c :: acc) p.2

/-- `generateRandomWord(length)`. -/
def genWord (length : Nat) (s : Entropy) : Option String × Entropy :=
  let p := genWordGo length [] s
  match p.1 with
  | none => (none, p.2)
  | some cs => (some (String.mk cs), p.2)

/-- The `while (positions.size < ...)` loop of `mutateWord`: draw positions
until `target` distinct ones are collected (fuel bounds the retries; the set
iterates in insertion order). -/
def genPositions (target len : Nat) : Nat → List Nat → Entropy →
    Option (List Nat) × Entropy
  | fuel, acc, s =>
    if acc.length ≥ target then (some acc.reverse, s)
    else
      match fuel with
      | 0 => (none, s)
      | fuel' + 1 =>
        let p := randIntG 0 ((len : Int) - 1) s
        let i := p.1.toNat
        if i ∈ acc then genPositions target len fuel' acc p.2
        else genPositions target len fuel' (i :: acc) p.2

/-- The `do ... while (newChar === chars[pos])` loop of `mutateWord`. -/
def genFreshChar (old : Char) : Nat → Entropy → Option Char × Entropy
  | 0, s => (none, s)
  | fuel + 1, s =>
    let p := randIntG 0 25 s
    match alphabetChars.get? p.1.toNat with
    | none => (none, p.2)
    | some c => if c = old then genFreshChar old fuel p.2 else (some c, p.2)

/-- The `for (const pos of positions)` loop of `mutateWord`. -/
def mutateApply (fuel : Nat) : List Char → List Nat → Entropy →
    Option (List Char) × Entropy
  | chars, [], s => (some chars, s)
  | chars, pos :: rest, s =>
    match chars.get? pos with
    | none => (none, s)
    | some old =>
      let p := genFreshChar old fuel s
      match p.1 with
      | none => (none, p.2)
      | some c => mutateApply fuel (chars.set pos c) rest p.2

/-- `mutateWord(word, changes)`. -/
def mutateWord (word : String) (changes : Nat) (fuel : Nat) (s : Entropy) :
    Option String × Entropy :=
  let chars := word.data
  let target := Nat.min changes chars.length
  let pPos := genPositions target chars.length fuel [] s
  match pPos.1 with
  | none => (none, pPos.2)
  | some positions =>
    let pCh := mutateApply fuel chars positions pPos.2
    match pCh.1 with
    | none => (none, pCh.2)
    | some cs => (some (String.mk cs), pCh.2)

/-- The loop of `generateRandomArray(length)`: `randomInt(1, 50)` entries. -/
def genArray : Nat → Entropy → List Int × Entropy
  | 0, s => ([], s)
  | k + 1, s =>
    let p := randIntG 1 50 s
    let rest := genArray k p.2
    (p.1 :: rest.1, rest.2)

/-- `generateParameters(functionName, difficulty)`: the per-function
parameter synthesis switch. -/
def generateParameters (name difficulty : String) (fuel : Nat) (s : Entropy) :
    Option (List JsValue) × Entropy :=
  let rangeLo : Int := if difficulty = "easy" then 1
    else if difficulty = "medium" then 10 else 20
  let rangeHi : Int := if difficulty = "easy" then 20
    else if difficulty = "medium" then 50 else 100
  if name = "fibonacci" then
    let p := randIntG 5 15 s
    (some [.num p.1], p.2)
  else if name = "isPrime" then
    let p := randIntG rangeLo rangeHi s
    (some [.num p.1], p.2)
  else if name = "gcd" ∨ name = "lcm" then
    let p1 := randIntG rangeLo rangeHi s
    let p2 := randIntG rangeLo rangeHi p1.2
    (some [.num p1.1, .num p2.1], p2.2)
  else if name = "factorial" then
    let p := randIntG 3 10 s
    (some [.num p.1], p.2)
  else if name = "modPow" then
    let p1 := randIntG 2 10 s
    let p2 := randIntG 2 8 p1.2
    let p3 := randIntG 10 50 p2.2
    (some [.num p1.1, .num p2.1, .num p3.1], p3.2)
  else if name = "digitSum" ∨ name = "digitCount" ∨ name = "isPerfectSquare"
      ∨ name = "triangular" then
    let p := randIntG rangeLo rangeHi s
    (some [.num p.1], p.2)
  else if name = "sumOfPrimes" then
    let p := randIntG 3 8 s
    (some [.num p.1], p.2)
  else if name = "reverseWords" ∨ name = "reverseString" ∨ name = "countVowels"
      ∨ name = "countConsonants" ∨ name = "removeVowels" ∨ name = "alternatingCase"
      ∨ name = "wordCount" ∨ name = "longestWord" ∨ name = "asciiSum" then
    let count : Nat := if difficulty = "easy" then 2
      else if difficulty = "medium" then 4 else 6
    let p := genWords count s
    match p.1 with
    | none => (none, p.2)
    | some w => (some [.str w], p.2)
  else if name = "caesarCipher" then
    let p1 := genWords 3 s
    match p1.1 with
    | none => (none, p1.2)
    | some w =>
      let p2 := randIntG 1 25 p1.2
      (some [.str w, .num p2.1], p2.2)
  else if name = "hammingDistance" then
    let p1 := genWord 5 s
    match p1.1 with
    | none => (none, p1.2)
    | some word =>
      let p2 := mutateWord word 2 fuel p1.2
      match p2.1 with
      | none => (none, p2.2)
      | some mutated => (some [.str word, .str mutated], p2.2)
  else if name = "countSubstring" then
    (some [.str "hello world hello", .str "hello"], s)
  else if name = "charAtWrapped" then
    let p := randIntG 0 20 s
    (some [.str "alphabet", .num p.1], p.2)
  else if name = "sumEvens" ∨ name = "sumOdds" ∨ name = "product"
      ∨ name = "findMedian" ∨ name = "findMode" ∨ name = "range"
      ∨ name = "secondLargest" ∨ name = "runningSum" ∨ name = "maxIndex" then
    let len : Nat := if difficulty = "easy" then 4
      else if difficulty = "medium" then 6 else 8
    let p := genArray len s
    (some [.numArr p.1], p.2)
  else if name = "rotateArray" then
    let p1 := genArray 5 s
    let p2 := randIntG 1 5 p1.2
    (some [.numArr p1.1, .num p2.1], p2.2)
  else if name = "countGreaterThan" ∨ name = "countLessThan" then
    let p1 := genArray 6 s
    let p2 := randIntG 20 50 p1.2
    (some [.numArr p1.1, .num p2.1], p2.2)
  else if name = "elementAtWrapped" then
    let p1 := genArray 5 s
    let p2 := randIntG 0 10 p1.2
    (some [.numArr p1.1, .num p2.1], p2.2)
  else if name = "dotProduct" then
    let len : Nat := if difficulty = "easy" then 3
      else if difficulty = "medium" then 4 else 5
    let p1 := genArray len s
    let p2 := genArray len p1.2
    (some [.numArr p1.1, .numArr p2.1], p2.2)
  else if name = "evaluatePolynomial" then
    let p1 := randIntG 1 5 s
    let p2 := randIntG 1 10 p1.2
    let p3 := randIntG 1 10 p2.2
    let p4 := randIntG 1 5 p3.2
    (some [.num p1.1, .num p2.1, .num p3.1, .num p4.1], p4.2)
  else if name = "weightedSum" then
    let wlen : Nat := if difficulty = "easy" then 3 else 4
    let p1 := genArray wlen s
    let p2 := genArray wlen p1.2
    (some [.numArr p1.1, .numArr p2.1], p2.2)
  else if name = "checksum" then
    let p := genArray 5 s
    (some [.numArr p.1], p.2)
  else if name = "computeAndHash" then
    let p1 := randIntG 10 50 s
    let p2 := randIntG 10 50 p1.2
    let p3 := randIntG 10 50 p2.2
    (some [.num p1.1, .num p2.1, .num p3.1], p3.2)
  else
    let p := randIntG rangeLo rangeHi s
    (some [.num p.1], p.2)

/-- `getFunctionCodeString(functionName)`: the display source map (braces in
the JS source strings are written `\x7b`/`\x7d`, apostrophes `\x27`). -/
def getFunctionCodeString (functionName : String) : String :=
  if functionName = "fibonacci" then
    "function fibonacci(n) \x7b\n  if (n <= 1) return n;\n  let a = 0, b = 1;\n  for (let i = 2; i <= n; i++) \x7b\n    const temp = a + b;\n    a = b;\n    b = temp;\n  \x7d\n  return b;\n\x7d"
  else if functionName = "isPrime" then
    "function isPrime(n) \x7b\n  if (n < 2) return false;\n  if (n === 2) return true;\n  if (n % 2 === 0) return false;\n  for (let i = 3; i <= Math.sqrt(n); i += 2) \x7b\n    if (n % i === 0) return false;\n  \x7d\n  return true;\n\x7d"
  else if functionName = "gcd" then
    "function gcd(a, b) \x7b\n  a = Math.abs(a);\n  b = Math.abs(b);\n  while (b !== 0) \x7b\n    const temp = b;\n    b = a % b;\n    a = temp;\n  \x7d\n  return a;\n\x7d"
  else if functionName = "digitSum" then
    "function digitSum(n) \x7b\n  n = Math.abs(n);\n  let sum = 0;\n  while (n > 0) \x7b\n    sum += n % 10;\n    n = Math.floor(n / 10);\n  \x7d\n  return sum;\n\x7d"
  else if functionName = "countVowels" then
    "function countVowels(str) \x7b\n  const vowels = \x27aeiouAEIOU\x27;\n  let count = 0;\n  for (const char of str) \x7b\n    if (vowels.includes(char)) count++;\n  \x7d\n  return count;\n\x7d"
  else if functionName = "sumEvens" then
    "function sumEvens(arr) \x7b\n  return arr.filter(n => n % 2 === 0).reduce((a, b) => a + b, 0);\n\x7d"
  else
    "function " ++ functionName ++ "(...args) \x7b /* implementation */ \x7d"

/-- `generateFunctionExecution(difficulty)`. -/
def generateFunctionExecution (registry : List RegisteredFunction)
    (difficulty : String) (fuel : Nat) (s : Entropy) :
    Option (ChallengePayload × JSString) × Entropy :=
  let pF := getRandomFunction registry difficulty s
  match pF.1 with
  | none => (none, pF.2)
  | some func =>
    let pParams := generateParameters func.name difficulty fuel pF.2
    match pParams.1 with
    | none => (none, pParams.2)
    | some parameters =>
      let result := func.fn parameters
      let pEnc := getResponseEncoding difficulty pParams.2
      match pEnc.1 with
      | none => (none, pEnc.2)
      | some responseEncoding =>
        match encode (strToJS (jsValueToString result)) responseEncoding with
        | none => (none, pEnc.2)
        | some expectedAnswer =>
          let functionCode := getFunctionCodeString func.name
          (some (.functionExecution func.name functionCode parameters
            responseEncoding, expectedAnswer), pEnc.2)

/-- `generatePayload(type, difficulty)`: dispatch on the challenge type
(`default` throws `Unknown challenge type`). -/
def generatePayload (registry : List RegisteredFunction) (type difficulty : String)
    (fuel : Nat) (s : Entropy) : Option (ChallengePayload × JSString) × Entropy :=
  if type = "function_execution" then
    generateFunctionExecution registry difficulty fuel s
  else if type = "chained_operations" then generateChainedOperations difficulty s
  else if type = "encoded_instruction" then generateEncodedInstruction difficulty s
  else if type = "pattern_extraction" then generatePatternExtraction difficulty s
  else if type = "code_transform" then generateCodeTransform difficulty s
  else (none, s)

/-- `ChallengeGenerator.generate(overrides?)`.  `id` is the fresh
`generateId()` token and `now` is `Date.now()`; both are platform inputs. -/
def generate (registry : List RegisteredFunction)
    (stringify : SigData → JSString) (sign : JSString → JSString → JSString)
    (cfg : UnCaptchaConfig) (overType overDiff : Option String) (id : String)
    (now : Int) (fuel : Nat) (s : Entropy) :
    Option (Challenge × JSString) × Entropy :=
  let pTy : Option String × Entropy :=
    match overType with
    | some t => (some t, s)
    | none => randElemG cfg.challengeTypes s
  match pTy.1 with
  | none => (none, pTy.2)
  | some ty =>
    let difficulty := overDiff.getD cfg.difficulty
    let pPayload := generatePayload registry ty difficulty fuel pTy.2
    match pPayload.1 with
    | none => (none, pPayload.2)
    | some (payload, expectedAnswer) =>
      let expiresAt := now + cfg.expirationMs
      let signature :=
        sign (stringify ⟨id, ty, payload, expiresAt, expectedAnswer⟩) cfg.secret
      (some (Challenge.mk id ty difficulty payload expiresAt signature,
        expectedAnswer), pPayload.2)

/-! ## Claim theorems -/

/-- C4: for every well-formed string `s` and every encoding kind in
`{plain, base64, hex, rot13}`, `decode(encode(s, k), k) = s`; and for
`rot13`, `encode` and `decode` are the same function. -/
theorem claim_C4 :
    (∀ s : JSString, Scalar s →
      ∀ k ∈ (["plain", "base64", "hex", "rot13"] : List String),
        (encode s k).bind (fun e => decode e k) = some s)
    ∧ (∀ v : JSString, encode v "rot13" = decode v "rot13") := by
  constructor
  · intro s hs k hk
    simp only [List.mem_cons, List.mem_singleton, List.not_mem_nil, or_false] at hk
    rcases hk with rfl | rfl | rfl | rfl
    · simp [encode, decode]
    · simp [encode, decode, decodeBase64_encodeBase64 s hs]
    · simp [encode, decode, decodeHex_encodeHex_str s hs]
    · simp [encode, decode, decodeRot13, encodeRot13_involutive]
  · intro v
    simp [encode, decode, decodeRot13]

theorem claim_C4_witness :
    (encode [104, 105] "hex").bind (fun e => decode e "hex") = some [104, 105] :=
  claim_C4.1 [104, 105] (by decide) "hex" (by decide)

/-- C5 counterexample: decoding the malformed hex string `"zz"` does not
fail — Node's hex decoder truncates at the first invalid pair, so `decode`
returns the empty string. -/
theorem claim_C5_counterexample : decode [122, 122] "hex" = some [] := by
  have h1 : decodeHexChars [122, 122] = [] := by
    simp [decodeHexChars, hexValOf]
  simp [decode, decodeHex, h1, utf8Decode]

/-- C5 (amended): `decode` never throws for the four known kinds — malformed
input is handled Node-style (hex truncates at the first invalid pair,
possibly to the empty string; base64 skips foreign characters) — while an
unknown `kind` value throws the generic `Unknown encoding type` error. -/
theorem claim_C5 :
    (∀ v : JSString, ∀ k ∈ (["plain", "base64", "hex", "rot13"] : List String),
      (decode v k).isSome = true)
    ∧ (∀ (v : JSString) (k : String),
        k ∉ (["plain", "base64", "hex", "rot13"] : List String) → decode v k = none)
    ∧ decode [122, 122] "hex" = some [] := by
  refine ⟨?_, ?_, claim_C5_counterexample⟩
  · intro v k hk
    simp only [List.mem_cons, List.mem_singleton, List.not_mem_nil, or_false] at hk
    rcases hk with rfl | rfl | rfl | rfl <;> simp [decode]
  · intro v k hk
    simp only [List.mem_cons, List.mem_singleton, List.not_mem_nil, or_false,
      not_or] at hk
    obtain ⟨h1, h2, h3, h4⟩ := hk
    simp [decode, h1, h2, h3, h4]

theorem claim_C5_witness : (decode [104] "plain").isSome = true :=
  claim_C5.1 [104] "plain" (by decide)

/-- C9: `safeCompare` is total by construction (the `timingSafeEqual` length
exception is caught and becomes `false`), and on well-formed strings it
returns `true` exactly when the two strings are identical. -/
theorem claim_C9 (a b : JSString) (ha : Scalar a) (hb : Scalar b) :
    safeCompare a b = true ↔ a = b :=
  safeCompare_eq_true_iff a b ha hb

theorem claim_C9_witness : safeCompare [104, 105] [104, 105] = true :=
  (claim_C9 [104, 105] [104, 105] (by decide) (by decide)).mpr rfl

/-- C6: with matching ids and a non-rate-limited client, a call strictly
after `challenge.expiresAt` returns `EXPIRED`, regardless of the submitted
solution or the store contents. -/
theorem claim_C6 (stringify : SigData → JSString)
    (sign : JSString → JSString → JSString) (cfg : UnCaptchaConfig)
    (ch : Challenge) (sol : ChallengeSolution) (key : String) (now : Int)
    (st : VerifierState)
    (hrl : (recordAttempt cfg.rateLimit key now st.rate).1.allowed = true)
    (hid : ch.id = sol.challengeId)
    (hexp : ch.expiresAt < now) :
    (verify stringify sign cfg ch sol key now st).1
      = ⟨false, some .EXPIRED⟩ := by
  unfold verify
  simp only [hrl, Bool.true_eq_false, if_false, hid, ne_eq, not_true_eq_false,
    if_pos hexp]

theorem claim_C6_witness :
    (verify (fun _ => []) (fun _ _ => [])
      ⟨[], "medium", [], 30000, ⟨10, 60000⟩⟩
      ⟨"a", "code_transform", "easy", .codeTransform "" "execute" "plain", 0, []⟩
      ⟨"a", []⟩ "k" 1 ⟨[], []⟩).1 = ⟨false, some .EXPIRED⟩ :=
  claim_C6 (fun _ => []) (fun _ _ => [])
    ⟨[], "medium", [], 30000, ⟨10, 60000⟩⟩
    ⟨"a", "code_transform", "easy", .codeTransform "" "execute" "plain", 0, []⟩
    ⟨"a", []⟩ "k" 1 ⟨[], []⟩ (by decide) rfl (by decide)

/-- Inversion of a successful stateful verification: the ids matched, the
store entry was deleted, the rate window was reset, and the result is
exactly `{valid: true}`. -/
theorem verify_valid_inv (stringify : SigData → JSString)
    (sign : JSString → JSString → JSString) (cfg : UnCaptchaConfig)
    (ch : Challenge) (sol : ChallengeSolution) (key : String) (now : Int)
    (st : VerifierState)
    (hv : (verify stringify sign cfg ch sol key now st).1.valid = true) :
    ch.id = sol.challengeId ∧
    (verify stringify sign cfg ch sol key now st).2.challengeStore
      = mapErase st.challengeStore ch.id ∧
    (verify stringify sign cfg ch sol key now st).2.rate
      = mapErase (recordAttempt cfg.rateLimit key now st.rate).2 key ∧
    (verify stringify sign cfg ch sol key now st).1 = ⟨true, none⟩ := by
  by_cases h1 : (recordAttempt cfg.rateLimit key now st.rate).1.allowed = false
  · simp [verify, h1] at hv
  · rw [Bool.not_eq_false] at h1
    by_cases hid : ch.id = sol.challengeId
    swap
    · simp [verify, h1, hid] at hv
    · have hidne : ¬ (ch.id ≠ sol.challengeId) := not_not_intro hid
      by_cases hexp : ch.expiresAt < now
      · simp [verify, h1, hidne, hexp] at hv
      · rcases hfind : mapFind st.challengeStore ch.id with _ | stored
        · simp [verify, h1, hidne, hexp, hfind] at hv
        · by_cases hsexp : stored.expiresAt < now
          · simp [verify, h1, hidne, hexp, hfind, hsexp] at hv
          · by_cases hsig : safeCompare ch.signature
              (sign (stringify ⟨ch.id, ch.type, ch.payload, ch.expiresAt,
                stored.expectedAnswer⟩) cfg.secret) = false
            · simp [verify, h1, hidne, hexp, hfind, hsexp, hsig] at hv
            · by_cases hsol : safeCompare sol.solution stored.expectedAnswer = false
              · simp [verify, h1, hidne, hexp, hfind, hsexp, hsig, hsol] at hv
              · refine ⟨hid, ?_, ?_, ?_⟩ <;>
                  simp [verify, h1, hidne, hexp, hfind, hsexp, hsig, hsol, rateReset]

/-- C2: a successful stateful verification deletes the store entry and
resets the client's rate-limit window; replaying the same challenge and
solution (still before expiry, not rate limited) then fails with
`CHALLENGE_NOT_FOUND`. -/
theorem claim_C2 (stringify : SigData → JSString)
    (sign : JSString → JSString → JSString) (cfg : UnCaptchaConfig)
    (ch : Challenge) (sol : ChallengeSolution) (key : String) (now : Int)
    (st : VerifierState)
    (hv : (verify stringify sign cfg ch sol key now st).1.valid = true) :
    mapFind (verify stringify sign cfg ch sol key now st).2.challengeStore ch.id
      = none ∧
    (verify stringify sign cfg ch sol key now st).2.rate
      = mapErase (recordAttempt cfg.rateLimit key now st.rate).2 key ∧
    ∀ now2 : Int,
      (recordAttempt cfg.rateLimit key now2
        (verify stringify sign cfg ch sol key now st).2.rate).1.allowed = true →
      ¬ (ch.expiresAt < now2) →
      (verify stringify sign cfg ch sol key now2
        (verify stringify sign cfg ch sol key now st).2).1
        = ⟨false, some .CHALLENGE_NOT_FOUND⟩ := by
  obtain ⟨hid, hstore, hrate, _⟩ :=
    verify_valid_inv stringify sign cfg ch sol key now st hv
  set st2 := (verify stringify sign cfg ch sol key now st).2 with hst2
  have hfind2 : mapFind st2.challengeStore ch.id = none := by
    rw [hstore]
    exact mapFind_mapErase_self _ _
  refine ⟨hfind2, hrate, ?_⟩
  intro now2 hrl2 hexp2
  have hidne : ¬ (ch.id ≠ sol.challengeId) := not_not_intro hid
  simp [verify, hrl2, hidne, hexp2, hfind2]

theorem claim_C2_witness :
    (verify (fun _ => []) (fun _ _ => [])
      ⟨[], "medium", [], 30000, ⟨10, 60000⟩⟩
      ⟨"a", "code_transform", "easy", .codeTransform "" "execute" "plain", 100, []⟩
      ⟨"a", []⟩ "k" 0
      (verify (fun _ => []) (fun _ _ => [])
        ⟨[], "medium", [], 30000, ⟨10, 60000⟩⟩
        ⟨"a", "code_transform", "easy", .codeTransform "" "execute" "plain", 100, []⟩
        ⟨"a", []⟩ "k" 0 ⟨[("a", ⟨[], 100⟩)], []⟩).2).1
      = ⟨false, some .CHALLENGE_NOT_FOUND⟩ :=
  ((claim_C2 (fun _ => []) (fun _ _ => [])
      ⟨[], "medium", [], 30000, ⟨10, 60000⟩⟩
      ⟨"a", "code_transform", "easy", .codeTransform "" "execute" "plain", 100, []⟩
      ⟨"a", []⟩ "k" 0 ⟨[("a", ⟨[], 100⟩)], []⟩ (by decide)).2.2) 0 (by decide)
    (by decide)

/-- C3: submitting a challenge whose payload was altered (while the store
still holds the original `expectedAnswer`) fails with `INVALID_SIGNATURE`:
the signature is recomputed over the altered payload and, with
`JSON.stringify` injective at the two objects (`hser`) and HMAC-SHA256
collision-free on the two serializations (`hcf`), it cannot match the
signature that was produced over the original payload.  `ch` is the
tampered challenge and `p0` the original payload. -/
theorem claim_C3 (stringify : SigData → JSString)
    (sign : JSString → JSString → JSString) (cfg : UnCaptchaConfig)
    (ch : Challenge) (sol : ChallengeSolution) (key : String) (now : Int)
    (st : VerifierState) (ea : JSString) (p0 : ChallengePayload)
    (hne : ch.payload ≠ p0)
    (hsig : ch.signature
      = sign (stringify ⟨ch.id, ch.type, p0, ch.expiresAt, ea⟩) cfg.secret)
    (hstored : mapFind st.challengeStore ch.id = some ⟨ea, ch.expiresAt⟩)
    (hrl : (recordAttempt cfg.rateLimit key now st.rate).1.allowed = true)
    (hid : ch.id = sol.challengeId)
    (hexp : ¬ (ch.expiresAt < now))
    (hser : (⟨ch.id, ch.type, ch.payload, ch.expiresAt, ea⟩ : SigData)
        ≠ ⟨ch.id, ch.type, p0, ch.expiresAt, ea⟩ →
      stringify ⟨ch.id, ch.type, ch.payload, ch.expiresAt, ea⟩
        ≠ stringify ⟨ch.id, ch.type, p0, ch.expiresAt, ea⟩)
    (hcf : stringify ⟨ch.id, ch.type, ch.payload, ch.expiresAt, ea⟩
        ≠ stringify ⟨ch.id, ch.type, p0, ch.expiresAt, ea⟩ →
      sign (stringify ⟨ch.id, ch.type, ch.payload, ch.expiresAt, ea⟩) cfg.secret
        ≠ sign (stringify ⟨ch.id, ch.type, p0, ch.expiresAt, ea⟩) cfg.secret)
    (hsc1 : Scalar (sign (stringify ⟨ch.id, ch.type, p0, ch.expiresAt, ea⟩)
      cfg.secret))
    (hsc2 : Scalar (sign (stringify ⟨ch.id, ch.type, ch.payload, ch.expiresAt, ea⟩)
      cfg.secret)) :
    (verify stringify sign cfg ch sol key now st).1
      = ⟨false, some .INVALID_SIGNATURE⟩ := by
  have hdata : (⟨ch.id, ch.type, ch.payload, ch.expiresAt, ea⟩ : SigData)
      ≠ ⟨ch.id, ch.type, p0, ch.expiresAt, ea⟩ := by
    intro hc
    injection hc with _ _ hp _ _
    exact hne hp
  have hsignne : sign (stringify ⟨ch.id, ch.type, ch.payload, ch.expiresAt, ea⟩)
      cfg.secret
      ≠ sign (stringify ⟨ch.id, ch.type, p0, ch.expiresAt, ea⟩) cfg.secret :=
    hcf (hser hdata)
  have hcmp : safeCompare ch.signature
      (sign (stringify ⟨ch.id, ch.type, ch.payload, ch.expiresAt, ea⟩) cfg.secret)
      = false := by
    rw [hsig]
    exact safeCompare_eq_false_of_ne _ _ hsc1 hsc2 (fun hc => hsignne hc.symm)
  have hidne : ¬ (ch.id ≠ sol.challengeId) := not_not_intro hid
  simp [verify, hrl, hidne, hexp, hstored, hcmp]

theorem claim_C3_witness :
    (verify
      (fun d => if d = ⟨"a", "code_transform",
        .codeTransform "const x = 2; const y = 2; return x + y;" "execute" "plain",
        100, [52]⟩ then [48] else [49])
      (fun d _ => d)
      ⟨[], "medium", [], 30000, ⟨10, 60000⟩⟩
      ⟨"a", "code_transform", "easy",
        .codeTransform "const x = 1; const y = 3; return x + y;" "execute" "plain",
        100, [48]⟩
      ⟨"a", [52]⟩ "k" 0 ⟨[("a", ⟨[52], 100⟩)], []⟩).1
      = ⟨false, some .INVALID_SIGNATURE⟩ :=
  claim_C3
    (fun d => if d = ⟨"a", "code_transform",
      .codeTransform "const x = 2; const y = 2; return x + y;" "execute" "plain",
      100, [52]⟩ then [48] else [49])
    (fun d _ => d)
    ⟨[], "medium", [], 30000, ⟨10, 60000⟩⟩
    ⟨"a", "code_transform", "easy",
      .codeTransform "const x = 1; const y = 3; return x + y;" "execute" "plain",
      100, [48]⟩
    ⟨"a", [52]⟩ "k" 0 ⟨[("a", ⟨[52], 100⟩)], []⟩ [52]
    (.codeTransform "const x = 2; const y = 2; return x + y;" "execute" "plain")
    (by decide) (by decide) (by decide) (by decide) (by decide) (by decide)
    (fun _ => by decide) (fun _ => by decide) (by decide) (by decide)

/-- Inversion of a successful generation: the challenge's signature is the
HMAC of the serialization of its own `{id, type, payload, expiresAt}`
together with the produced `expectedAnswer` — generator and verifier
serialize the same record. -/
theorem generate_signature_inv (registry : List RegisteredFunction)
    (stringify : SigData → JSString) (sign : JSString → JSString → JSString)
    (cfg : UnCaptchaConfig) (overType overDiff : Option String) (id : String)
    (now : Int) (fuel : Nat) (s : Entropy) (ch : Challenge) (ea : JSString)
    (s' : Entropy)
    (h : generate registry stringify sign cfg overType overDiff id now fuel s
      = (some (ch, ea), s')) :
    ch.signature = sign (stringify ⟨ch.id, ch.type, ch.payload, ch.expiresAt, ea⟩)
      cfg.secret := by
  simp only [generate] at h
  rcases hTy : (match overType with
      | some t => ((some t, s) : Option String × Entropy)
      | none => randElemG cfg.challengeTypes s).1 with _ | ty
  · rw [hTy] at h
    simp at h
  · rw [hTy] at h
    simp only at h
    rcases hP : (generatePayload registry ty (overDiff.getD cfg.difficulty) fuel
        (match overType with
          | some t => ((some t, s) : Option String × Entropy)
          | none => randElemG cfg.challengeTypes s).2).1 with _ | pe
    · rw [hP] at h
      simp at h
    · rw [hP] at h
      obtain ⟨payload, expectedAnswer⟩ := pe
      simp only [Prod.mk.injEq, Option.some.injEq] at h
      obtain ⟨⟨hch, hea⟩, _⟩ := h
      subst hch hea
      rfl

/-- C1: whatever challenge type and difficulty `generate` was asked for, if
it produces `(challenge, expectedAnswer)` and the pair is stored via
`storeChallenge(challenge.id, expectedAnswer, challenge.expiresAt)`, then an
immediate `verify(challenge, {challengeId: challenge.id, solution:
expectedAnswer}, clientKey)` — before expiry and not rate limited — returns
`{valid: true}`: the generator's signature passes the verifier's
recomputation. -/
theorem claim_C1 (registry : List RegisteredFunction)
    (stringify : SigData → JSString) (sign : JSString → JSString → JSString)
    (cfg : UnCaptchaConfig) (overType overDiff : Option String) (id : String)
    (now : Int) (fuel : Nat) (s : Entropy) (ch : Challenge) (ea : JSString)
    (s' : Entropy) (key : String) (now2 : Int) (st : VerifierState)
    (hgen : generate registry stringify sign cfg overType overDiff id now fuel s
      = (some (ch, ea), s'))
    (hrl : (recordAttempt cfg.rateLimit key now2
      (storeChallenge st ch.id ea ch.expiresAt).rate).1.allowed = true)
    (hexp : ¬ (ch.expiresAt < now2)) :
    (verify stringify sign cfg ch ⟨ch.id, ea⟩ key now2
      (storeChallenge st ch.id ea ch.expiresAt)).1 = ⟨true, none⟩ := by
  have hsig := generate_signature_inv registry stringify sign cfg overType
    overDiff id now fuel s ch ea s' hgen
  have hfind : mapFind (storeChallenge st ch.id ea ch.expiresAt).challengeStore
      ch.id = some ⟨ea, ch.expiresAt⟩ := by
    unfold storeChallenge
    exact mapFind_mapSet_self _ _ _
  have hsigcmp : safeCompare ch.signature
      (sign (stringify ⟨ch.id, ch.type, ch.payload, ch.expiresAt, ea⟩) cfg.secret)
      = true := by
    rw [hsig]
    exact safeCompare_refl _
  have hsolcmp : safeCompare ea ea = true := safeCompare_refl ea
  have hidne : ¬ (ch.id ≠ ch.id) := not_not_intro rfl
  simp [verify, hrl, hidne, hexp, hfind, hsigcmp, hsolcmp]

theorem claim_C1_witness :
    (verify (fun _ => [51]) (fun d _ => d)
      ⟨[51], "medium", [], 30000, ⟨10, 60000⟩⟩
      ⟨"cid", "code_transform", "easy",
        .codeTransform "const x = 1; const y = 1; return x + y;" "execute" "plain",
        30000, [51]⟩
      ⟨"cid", [50]⟩ "k" 5
      (storeChallenge ⟨[], []⟩ "cid" [50] 30000)).1 = ⟨true, none⟩ :=
  claim_C1 [] (fun _ => [51]) (fun d _ => d)
    ⟨[51], "medium", [], 30000, ⟨10, 60000⟩⟩
    (some "code_transform") (some "easy") "cid" 0 0 [] _ _ []
    "k" 5 ⟨[], []⟩ (by decide) (by decide) (by decide)

theorem mapErase_idem {β : Type} (l : List (String × β)) (k : String) :
    mapErase (mapErase l k) k = mapErase l k := by
  induction l with
  | nil => rfl
  | cons p rest ih =>
    obtain ⟨k0, v⟩ := p
    by_cases hp : k0 = k
    · rw [mapErase, if_pos hp]
      exact ih
    · rw [mapErase, if_neg hp, mapErase, if_neg hp, ih]

theorem mapSet_mapSet {β : Type} (l : List (String × β)) (k : String) (v w : β) :
    mapSet (mapSet l k v) k w = mapSet l k w := by
  unfold mapSet
  rw [mapErase, if_pos rfl, mapErase_idem]

/-- Fresh-window allowed case of `recordAttempt`: no entry (or an elapsed
one), positive `maxAttempts`. -/
theorem recordAttempt_fresh_allowed (cfg : RateLimitConfig) (key : String)
    (now : Int) (st : RateState)
    (hfresh : mapFind st key = none
      ∨ ∃ e, mapFind st key = some e ∧ e.resetAt < now)
    (hmax : 0 < cfg.maxAttempts) :
    recordAttempt cfg key now st
      = (⟨true, cfg.maxAttempts - 1, now + cfg.windowMs⟩,
         mapSet st key ⟨1, now + cfg.windowMs⟩) := by
  have hden : ¬ (cfg.maxAttempts ≤ (0 : Nat)) := by omega
  rcases hfresh with hnone | ⟨e, hsome, helapsed⟩
  · simp [recordAttempt, hnone, hden, mapSet_mapSet]
  · simp [recordAttempt, hsome, helapsed, hden, mapSet_mapSet]

/-- Fresh-window denied case of `recordAttempt` (`maxAttempts = 0`). -/
theorem recordAttempt_fresh_denied (cfg : RateLimitConfig) (key : String)
    (now : Int) (st : RateState)
    (hfresh : mapFind st key = none
      ∨ ∃ e, mapFind st key = some e ∧ e.resetAt < now)
    (hmax : cfg.maxAttempts = 0) :
    recordAttempt cfg key now st
      = (⟨false, 0, now + cfg.windowMs⟩, mapSet st key ⟨0, now + cfg.windowMs⟩) := by
  rcases hfresh with hnone | ⟨e, hsome, helapsed⟩
  · simp [recordAttempt, hnone, hmax]
  · simp [recordAttempt, hsome, helapsed, hmax]

/-- Saturated case: live entry at or above `maxAttempts` is denied without
incrementing, leaving the state unchanged. -/
theorem recordAttempt_saturated (cfg : RateLimitConfig) (key : String)
    (now : Int) (st : RateState) (e : RateLimitEntry)
    (hsome : mapFind st key = some e) (hlive : ¬ (e.resetAt < now))
    (hsat : cfg.maxAttempts ≤ e.count) :
    recordAttempt cfg key now st = (⟨false, 0, e.resetAt⟩, st) := by
  simp [recordAttempt, hsome, hlive, hsat]

/-- Increment case: live entry below `maxAttempts` is incremented and
allowed with `remaining = maxAttempts - (count + 1)`. -/
theorem recordAttempt_increment (cfg : RateLimitConfig) (key : String)
    (now : Int) (st : RateState) (e : RateLimitEntry)
    (hsome : mapFind st key = some e) (hlive : ¬ (e.resetAt < now))
    (hlt : e.count < cfg.maxAttempts) :
    recordAttempt cfg key now st
      = (⟨true, cfg.maxAttempts - (e.count + 1), e.resetAt⟩,
         mapSet st key ⟨e.count + 1, e.resetAt⟩) := by
  have hden : ¬ (cfg.maxAttempts ≤ e.count) := by omega
  simp [recordAttempt, hsome, hlive, hden]

/-- `k` consecutive `recordAttempt` calls for one key at one instant. -/
def iterRecord (cfg : RateLimitConfig) (key : String) (now : Int)
    (st : RateState) : Nat → RateState
  | 0 => st
  | k + 1 => (recordAttempt cfg key now (iterRecord cfg key now st k)).2

/-- Within one window, starting from a key with no entry, the `k`-th call
leaves the entry at count `k`. -/
theorem iterRecord_find (cfg : RateLimitConfig) (key : String) (now : Int)
    (st : RateState) (h0 : mapFind st key = none) (hw : 0 ≤ cfg.windowMs) :
    ∀ k, k ≤ cfg.maxAttempts →
      mapFind (iterRecord cfg key now st k) key
        = if k = 0 then none else some ⟨k, now + cfg.windowMs⟩ := by
  intro k
  induction k with
  | zero => intro _; simpa [iterRecord]
  | succ k ih =>
    intro hk
    have ihk := ih (by omega)
    rcases Nat.eq_zero_or_pos k with hk0 | hkpos
    · subst hk0
      simp only [if_pos rfl] at ihk
      rw [iterRecord,
        recordAttempt_fresh_allowed cfg key now _ (Or.inl ihk) (by omega)]
      simp [mapFind_mapSet_self]
    · have hkne : ¬ (k = 0) := by omega
      rw [if_neg hkne] at ihk
      rw [iterRecord,
        recordAttempt_increment cfg key now _ ⟨k, now + cfg.windowMs⟩ ihk
          (by show ¬ (now + cfg.windowMs < now); omega)
          (by show k < cfg.maxAttempts; omega)]
      simp [mapFind_mapSet_self]

/-- C7: `recordAttempt` is a fixed-window counter: a missing or elapsed
entry starts a fresh window `{count: 0, resetAt: now + windowMs}` (allowed
with `remaining = maxAttempts - 1` unless `maxAttempts = 0`); a saturated
live entry is denied without incrementing; otherwise the count is
incremented and the call allowed with `remaining = maxAttempts - count`.
Consequently the `(maxAttempts+1)`-th call of one window is denied, and a
call after the window elapsed gets the fresh-window allowance again. -/
theorem claim_C7 (cfg : RateLimitConfig) (key : String) (now : Int)
    (st : RateState) :
    ((mapFind st key = none ∨ ∃ e, mapFind st key = some e ∧ e.resetAt < now) →
      (0 < cfg.maxAttempts →
        recordAttempt cfg key now st
          = (⟨true, cfg.maxAttempts - 1, now + cfg.windowMs⟩,
             mapSet st key ⟨1, now + cfg.windowMs⟩)) ∧
      (cfg.maxAttempts = 0 →
        recordAttempt cfg key now st
          = (⟨false, 0, now + cfg.windowMs⟩,
             mapSet st key ⟨0, now + cfg.windowMs⟩)))
    ∧ (∀ e, mapFind st key = some e → ¬ (e.resetAt < now) →
        cfg.maxAttempts ≤ e.count →
        recordAttempt cfg key now st = (⟨false, 0, e.resetAt⟩, st))
    ∧ (∀ e, mapFind st key = some e → ¬ (e.resetAt < now) →
        e.count < cfg.maxAttempts →
        recordAttempt cfg key now st
          = (⟨true, cfg.maxAttempts - (e.count + 1), e.resetAt⟩,
             mapSet st key ⟨e.count + 1, e.resetAt⟩))
    ∧ (mapFind st key = none → 0 ≤ cfg.windowMs →
        (∀ k, k < cfg.maxAttempts →
          (recordAttempt cfg key now (iterRecord cfg key now st k)).1.allowed
            = true)
        ∧ (recordAttempt cfg key now
            (iterRecord cfg key now st cfg.maxAttempts)).1.allowed = false) := by
  refine ⟨?_, ?_, ?_, ?_⟩
  · intro hfresh
    exact ⟨recordAttempt_fresh_allowed cfg key now st hfresh,
      recordAttempt_fresh_denied cfg key now st hfresh⟩
  · intro e hsome hlive hsat
    exact recordAttempt_saturated cfg key now st e hsome hlive hsat
  · intro e hsome hlive hlt
    exact recordAttempt_increment cfg key now st e hsome hlive hlt
  · intro h0 hw
    constructor
    · intro k hk
      have hfind := iterRecord_find cfg key now st h0 hw k (by omega)
      rcases Nat.eq_zero_or_pos k with hk0 | hkpos
      · subst hk0
        rw [if_pos rfl] at hfind
        rw [recordAttempt_fresh_allowed cfg key now _ (Or.inl hfind) (by omega)]
      · rw [if_neg (by omega)] at hfind
        rw [recordAttempt_increment cfg key now _ ⟨k, now + cfg.windowMs⟩ hfind
          (by show ¬ (now + cfg.windowMs < now); omega)
          (by show k < cfg.maxAttempts; omega)]
    · have hfind := iterRecord_find cfg key now st h0 hw cfg.maxAttempts
        (by omega)
      rcases Nat.eq_zero_or_pos cfg.maxAttempts with hm0 | hmpos
      · rw [hm0, if_pos rfl] at hfind
        rw [hm0]
        rw [recordAttempt_fresh_denied cfg key now _ (Or.inl hfind) hm0]
      · rw [if_neg (by omega)] at hfind
        rw [recordAttempt_saturated cfg key now _
          ⟨cfg.maxAttempts, now + cfg.windowMs⟩ hfind
          (by show ¬ (now + cfg.windowMs < now); omega)
          (by show cfg.maxAttempts ≤ cfg.maxAttempts; omega)]

theorem claim_C7_witness :
    (recordAttempt ⟨2, 1000⟩ "c" 0 (iterRecord ⟨2, 1000⟩ "c" 0 [] 2)).1.allowed
      = false :=
  ((claim_C7 ⟨2, 1000⟩ "c" 0 []).2.2.2 (by decide) (by decide)).2

/-- The state after `verifyStateless`, in every branch: the store is
untouched and the rate map is exactly the one `recordAttempt` produced. -/
theorem verifyStateless_state (stringify : SigData → JSString)
    (sign : JSString → JSString → JSString) (cfg : UnCaptchaConfig)
    (ch : Challenge) (sol : ChallengeSolution) (key : String) (now : Int)
    (st : VerifierState) :
    (verifyStateless stringify sign cfg ch sol key now st).2
      = ⟨st.challengeStore, (recordAttempt cfg.rateLimit key now st.rate).2⟩ := by
  simp only [verifyStateless]
  split_ifs <;> rfl

/-- `k` consecutive `verifyStateless` calls with fixed inputs. -/
def iterStateless (stringify : SigData → JSString)
    (sign : JSString → JSString → JSString) (cfg : UnCaptchaConfig)
    (ch : Challenge) (sol : ChallengeSolution) (key : String) (now : Int)
    (st : VerifierState) : Nat → VerifierState
  | 0 => st
  | k + 1 => (verifyStateless stringify sign cfg ch sol key now
      (iterStateless stringify sign cfg ch sol key now st k)).2

theorem iterStateless_eq (stringify : SigData → JSString)
    (sign : JSString → JSString → JSString) (cfg : UnCaptchaConfig)
    (ch : Challenge) (sol : ChallengeSolution) (key : String) (now : Int)
    (st : VerifierState) :
    ∀ k, iterStateless stringify sign cfg ch sol key now st k
      = ⟨st.challengeStore, iterRecord cfg.rateLimit key now st.rate k⟩ := by
  intro k
  induction k with
  | zero => rfl
  | succ k ih =>
    rw [iterStateless, ih, verifyStateless_state]
    rfl

/-- C10: `verifyStateless` never writes the challenge store and never
resets the rate window — its only state effect is the initial
`recordAttempt` — so `maxAttempts` consecutive *successful* stateless
verifications within one window make the next call return `RATE_LIMITED`. -/
theorem claim_C10 (stringify : SigData → JSString)
    (sign : JSString → JSString → JSString) (cfg : UnCaptchaConfig)
    (ch : Challenge) (sol : ChallengeSolution) (key : String) (now : Int)
    (st : VerifierState) :
    ((verifyStateless stringify sign cfg ch sol key now st).2
      = ⟨st.challengeStore, (recordAttempt cfg.rateLimit key now st.rate).2⟩)
    ∧ (mapFind st.rate key = none → 0 ≤ cfg.rateLimit.windowMs →
       ch.id = sol.challengeId → ¬ (ch.expiresAt < now) →
       safeCompare ch.signature
         (sign (stringify ⟨ch.id, ch.type, ch.payload, ch.expiresAt,
           sol.solution⟩) cfg.secret) = true →
       (∀ k, k < cfg.rateLimit.maxAttempts →
         (verifyStateless stringify sign cfg ch sol key now
           (iterStateless stringify sign cfg ch sol key now st k)).1
           = ⟨true, none⟩)
       ∧ (verifyStateless stringify sign cfg ch sol key now
           (iterStateless stringify sign cfg ch sol key now st
             cfg.rateLimit.maxAttempts)).1 = ⟨false, some .RATE_LIMITED⟩) := by
  refine ⟨verifyStateless_state stringify sign cfg ch sol key now st, ?_⟩
  intro h0 hw hid hexp hsig
  have hidne : ¬ (ch.id ≠ sol.challengeId) := not_not_intro hid
  constructor
  · intro k hk
    rw [iterStateless_eq]
    have hfind := iterRecord_find cfg.rateLimit key now st.rate h0 hw k (by omega)
    have hallowed : (recordAttempt cfg.rateLimit key now
        (iterRecord cfg.rateLimit key now st.rate k)).1.allowed = true := by
      rcases Nat.eq_zero_or_pos k with hk0 | hkpos
      · subst hk0
        rw [if_pos rfl] at hfind
        rw [recordAttempt_fresh_allowed cfg.rateLimit key now _ (Or.inl hfind)
          (by omega)]
      · rw [if_neg (by omega)] at hfind
        rw [recordAttempt_increment cfg.rateLimit key now _
          ⟨k, now + cfg.rateLimit.windowMs⟩ hfind
          (by show ¬ (now + cfg.rateLimit.windowMs < now); omega)
          (by show k < cfg.rateLimit.maxAttempts; omega)]
    simp [verifyStateless, hallowed, hidne, hexp, hsig]
  · rw [iterStateless_eq]
    have hfind := iterRecord_find cfg.rateLimit key now st.rate h0 hw
      cfg.rateLimit.maxAttempts (by omega)
    have hdenied : (recordAttempt cfg.rateLimit key now
        (iterRecord cfg.rateLimit key now st.rate
          cfg.rateLimit.maxAttempts)).1.allowed = false := by
      rcases Nat.eq_zero_or_pos cfg.rateLimit.maxAttempts with hm0 | hmpos
      · rw [hm0, if_pos rfl] at hfind
        rw [hm0, recordAttempt_fresh_denied cfg.rateLimit key now _
          (Or.inl hfind) hm0]
      · rw [if_neg (by omega)] at hfind
        rw [recordAttempt_saturated cfg.rateLimit key now _
          ⟨cfg.rateLimit.maxAttempts, now + cfg.rateLimit.windowMs⟩ hfind
          (by show ¬ (now + cfg.rateLimit.windowMs < now); omega)
          (by show cfg.rateLimit.maxAttempts ≤ cfg.rateLimit.maxAttempts; omega)]
    simp [verifyStateless, hdenied]

theorem claim_C10_witness :
    (verifyStateless (fun _ => [48]) (fun d _ => d)
      ⟨[], "medium", [], 30000, ⟨1, 60000⟩⟩
      ⟨"a", "code_transform", "easy",
        .codeTransform "" "execute" "plain", 100, [48]⟩
      ⟨"a", [49]⟩ "k" 0
      (iterStateless (fun _ => [48]) (fun d _ => d)
        ⟨[], "medium", [], 30000, ⟨1, 60000⟩⟩
        ⟨"a", "code_transform", "easy",
          .codeTransform "" "execute" "plain", 100, [48]⟩
        ⟨"a", [49]⟩ "k" 0 ⟨[], []⟩ 1)).1 = ⟨false, some .RATE_LIMITED⟩ :=
  ((claim_C10 (fun _ => [48]) (fun d _ => d)
      ⟨[], "medium", [], 30000, ⟨1, 60000⟩⟩
      ⟨"a", "code_transform", "easy",
        .codeTransform "" "execute" "plain", 100, [48]⟩
      ⟨"a", [49]⟩ "k" 0 ⟨[], []⟩).2 (by decide) (by decide) (by decide)
      (by decide) (by decide)).2

/-- C8: for `min ≤ max`, `randomInt`'s rejection sampler (1) only ever
returns values in `[min, max]`, (2) rejects and resamples exactly the
candidates strictly above `maxValid = ⌊256^bytesNeeded / range⌋·range − 1`,
accepting the rest as `min + candidate % range`, and (3) every value of
`[min, max]` is the image of exactly `⌊256^bytesNeeded / range⌋` accepted
candidates — the sampler is uniform. -/
theorem claim_C8 (min max : Int) (h : min ≤ max) :
    (∀ (chunks : List (List Nat)) (r : Int),
      randomIntLoop min max chunks = some r → min ≤ r ∧ r ≤ max)
    ∧ (∀ (chunk : List Nat) (rest : List (List Nat)),
        maxValidOf (rangeOf min max) < bytesLE chunk →
        randomIntLoop min max (chunk :: rest) = randomIntLoop min max rest)
    ∧ (∀ (chunk : List Nat) (rest : List (List Nat)),
        bytesLE chunk ≤ maxValidOf (rangeOf min max) →
        randomIntLoop min max (chunk :: rest)
          = some (randomIntResult min max (bytesLE chunk)))
    ∧ (∀ t : Int, min ≤ t → t ≤ max →
        (Finset.filter
          (fun v => v ≤ maxValidOf (rangeOf min max)
            ∧ randomIntResult min max v = t)
          (Finset.range (256 ^ bytesNeededOf (rangeOf min max)))).card
          = 256 ^ bytesNeededOf (rangeOf min max) / rangeOf min max) := by
  refine ⟨?_, ?_, ?_, ?_⟩
  · intro chunks
    induction chunks with
    | nil =>
      intro r hr
      simp [randomIntLoop] at hr
    | cons chunk rest ih =>
      intro r hr
      rw [randomIntLoop] at hr
      split at hr
      · obtain rfl : randomIntResult min max (bytesLE chunk) = r :=
          Option.some.inj hr
        exact randomIntResult_mem min max h _
      · exact ih r hr
  · intro chunk rest hrej
    rw [randomIntLoop, if_neg (by omega)]
  · intro chunk rest hacc
    rw [randomIntLoop, if_pos hacc]
  · intro t ht1 ht2
    exact card_accepted_candidates min max h t ht1 ht2

theorem claim_C8_witness :
    randomIntLoop 0 2 [[7]] = some (randomIntResult 0 2 (bytesLE [7])) := by
  have hr3 : rangeOf 0 2 = 3 := by decide
  have hbn : bytesNeededOf (rangeOf 0 2) = 1 := by
    rw [hr3]
    unfold bytesNeededOf
    rw [Nat.clog]
    norm_num
  have hmv : maxValidOf (rangeOf 0 2) = 254 := by
    unfold maxValidOf
    rw [hbn, hr3]
    norm_num
  exact (claim_C8 0 2 (by norm_num)).2.2.1 [7] []
    (by rw [hmv]; decide)

/-- C4 counterexample: the round trip fails on an ill-formed JavaScript
string.  The lone surrogate U+D800 is a valid JS string, but
`Buffer.from('\uD800', 'utf-8')` encodes it as the replacement character
U+FFFD, so base64-decoding the base64 encoding returns `'�'`, not the
original string. -/
theorem claim_C4_counterexample :
    ¬ ((encode [0xD800] "base64").bind (fun e => decode e "base64")
      = some [0xD800]) := by
  have h1 : encode [0xD800] "base64" = some [55, 55, 43, 57] := by decide
  have h2 : decodeB64Vals (([55, 55, 43, 57] : JSString).filterMap b64ValOf)
      = [239, 191, 189] := by decide
  have h3 : utf8Decode [239, 191, 189] = [0xFFFD] := by
    rw [utf8Decode]
    norm_num [utf8Step, isCont, utf8Decode]
  rw [h1]
  simp only [Option.bind_some, decode, decodeBase64]
  norm_num [h2, h3]
  decide

/-- C9 counterexample: `safeCompare` can return `true` on two *distinct*
ill-formed JavaScript strings: the lone surrogates U+D800 and U+DC00 have
the same UTF-16 length and the same UTF-8 encoding (both become the
replacement character U+FFFD under `Buffer.from`), so `timingSafeEqual`
compares equal buffers. -/
theorem claim_C9_counterexample :
    safeCompare [0xD800] [0xDC00] = true ∧ ([0xD800] : JSString) ≠ [0xDC00] := by
  constructor
  · decide
  · decide

end UnCaptcha
